import Mathlib

/-!
Verification of the MAAS interface-reconciliation engine
(`src/metadataserver/builtin_scripts/network.py`) and of the spec-level model
of the beaconing hint engine and multicast scheduler.

The persistent model store (Django ORM rows for Interface, VLAN, Fabric,
Subnet, StaticIPAddress and the interface/address many-to-many table) is
embedded as an explicit `Store` value threaded through every function.
Conventions used throughout the embedding:

* Field assignments on ORM objects are applied to the store eagerly (Python
  mutates the in-memory object, and every mutated object in this module is
  saved before the transaction ends); a `save()` call additionally appends an
  `updateRow` write event.  `get_or_create`/`create` append `createRow`
  events, queryset deletions append one `deleteRow` event per deleted row,
  and many-to-many `add`/`remove` append `linkRow`/`unlinkRow` events when
  they change the table.
* `netaddr` address parsing is abstracted: a link's `address` is carried
  pre-split as `(ip, cidr)` and the gateway-in-network test is carried as a
  boolean on the link.
* `maaslog.error` calls are modelled as structured `LogE` entries.
-/

/-- `alloc_type` of a `StaticIPAddress` row (IPADDRESS_TYPE). -/
inductive AllocType where
  | sticky
  | dhcp
  | discovered
deriving DecidableEq, Repr

/-- A write performed against the store: row creation, row update (a `save`),
row deletion, and linking/unlinking of an address to an interface. -/
inductive WEvent where
  | createRow (table : String) (id : Nat)
  | updateRow (table : String) (id : Nat)
  | deleteRow (table : String) (id : Nat)
  | linkRow (iface : Nat) (ip : Nat)
  | unlinkRow (iface : Nat) (ip : Nat)
deriving DecidableEq, Repr

/-- An operator-visible `maaslog.error` entry. -/
inductive LogE where
  /-- "Unable to update IP address ... Subnet for IP address is not on VLAN ..." -/
  | vlanMismatch (ip : String) (iface : Nat) (subnet : Nat)
  /-- "Interface ... is not on the same fabric as VLAN interface ..." -/
  | fabricMismatch (parent : Nat) (name : String)
  /-- "VLAN interface ... reports VLAN ... but links are on VLAN ..." -/
  | vidMismatch (name : String) (vid : Nat) (linksVid : Nat)
deriving DecidableEq, Repr

/-- An Interface row.  `itype` is the type tag (`physical`, `vlan`, `bond`,
`bridge`), `vlan` the nullable VLAN foreign key, `parents` the ordered
parent-relationship rows. -/
structure Iface where
  id : Nat
  node : Nat
  name : String
  mac : String
  itype : String
  vlan : Option Nat
  enabled : Bool
  parents : List Nat
  acquired : Bool
deriving DecidableEq, Repr

/-- A VLAN row: belongs to one fabric and carries a numeric tag. -/
structure VlanR where
  id : Nat
  fabric : Nat
  vid : Nat
deriving DecidableEq, Repr

/-- A Fabric row together with the id of its default VLAN. -/
structure FabricR where
  id : Nat
  defaultVlan : Nat
deriving DecidableEq, Repr

/-- A Subnet row: a CIDR bound to one VLAN, with an optional gateway. -/
structure SubnetR where
  id : Nat
  name : String
  cidr : String
  vlan : Nat
  gatewayIp : Option String
deriving DecidableEq, Repr

/-- A StaticIPAddress row. -/
structure IpR where
  id : Nat
  allocType : AllocType
  ip : Option String
  subnet : Option Nat
deriving DecidableEq, Repr

/-- One link of an interface's desired state.  `address` is the
pre-parsed `(ip, cidr)` pair of the link's `address` string; `gatewayInCidr`
abstracts the netaddr test `IPAddress(gateway) in subnet.get_ipnetwork()`. -/
structure LinkCfg where
  mode : String
  address : Option (String × String)
  gateway : Option String
  gatewayInCidr : Bool
deriving DecidableEq, Repr

/-- The desired state of one interface, as handed to the reconciler. -/
structure IfaceCfg where
  itype : String
  parents : List String
  mac : String
  enabled : Bool
  links : List LinkCfg
  vid : Nat
deriving DecidableEq, Repr

/-- A topology hint as consumed by the reconciler (a JSON dictionary whose
fields may be absent, hence the `Option`s). -/
structure HintR where
  ifname : Option String
  vid : Option Nat
  hint : Option String
  relatedIfname : Option String
  relatedVid : Option Nat
  relatedMac : Option String
deriving DecidableEq, Repr

/-- The model store.  `links` is the interface/address many-to-many table,
`boots` maps a node id to its `boot_interface_id` (absence meaning NULL),
`defaultVlan` is the id of the default VLAN of the default fabric,
`nextId` feeds fresh primary keys, `writes` is the write instrumentation and
`logs` the operator-visible log. -/
structure Store where
  ifaces : List Iface
  vlans : List VlanR
  fabrics : List FabricR
  subnets : List SubnetR
  ips : List IpR
  links : List (Nat × Nat)
  boots : List (Nat × Nat)
  defaultVlan : Nat
  nextId : Nat
  writes : List WEvent
  logs : List LogE
deriving DecidableEq, Repr

def Store.addWrite (s : Store) (e : WEvent) : Store :=
  { s with writes := s.writes ++ [e] }

def Store.addLog (s : Store) (e : LogE) : Store :=
  { s with logs := s.logs ++ [e] }

def Store.findIface? (s : Store) (i : Nat) : Option Iface :=
  s.ifaces.find? (fun a => a.id = i)

def Store.findVlan? (s : Store) (v : Nat) : Option VlanR :=
  s.vlans.find? (fun a => a.id = v)

def Store.findFabric? (s : Store) (f : Nat) : Option FabricR :=
  s.fabrics.find? (fun a => a.id = f)

def Store.findSubnet? (s : Store) (i : Nat) : Option SubnetR :=
  s.subnets.find? (fun a => a.id = i)

def Store.findIp? (s : Store) (i : Nat) : Option IpR :=
  s.ips.find? (fun a => a.id = i)

/-- Write an interface row back (eager in-memory assignment; no event). -/
def Store.setIface (s : Store) (a : Iface) : Store :=
  { s with ifaces := s.ifaces.map (fun b => if b.id = a.id then a else b) }

/-- Write a subnet row back. -/
def Store.setSubnet (s : Store) (a : SubnetR) : Store :=
  { s with subnets := s.subnets.map (fun b => if b.id = a.id then a else b) }

/-- Write an address row back. -/
def Store.setIp (s : Store) (a : IpR) : Store :=
  { s with ips := s.ips.map (fun b => if b.id = a.id then a else b) }

/-- Address rows currently linked to interface `i`, in store order
(`list(interface.ip_addresses.all())`). -/
def Store.linkedIps (s : Store) (i : Nat) : List IpR :=
  s.ips.filter (fun r => s.links.contains (i, r.id))

/-- `interface.ip_addresses.add(ip)`: inserts the m2m row if absent. -/
def Store.addLink (s : Store) (i ip : Nat) : Store :=
  if s.links.contains (i, ip) then s
  else { s with links := s.links ++ [(i, ip)],
                writes := s.writes ++ [.linkRow i ip] }

/-- `interface.ip_addresses.remove(ip)`: drops the m2m row if present. -/
def Store.removeLink (s : Store) (i ip : Nat) : Store :=
  if s.links.contains (i, ip) then
    { s with links := s.links.filter (fun l => ¬ (l = (i, ip))),
             writes := s.writes ++ [.unlinkRow i ip] }
  else s

/-- Delete the StaticIPAddress rows with the given (existing) ids; the m2m
rows referencing them are removed by the database cascade. -/
def Store.deleteIps (s : Store) (ids : List Nat) : Store :=
  { s with ips := s.ips.filter (fun r => ¬ ids.contains r.id),
           links := s.links.filter (fun l => ¬ ids.contains l.2),
           writes := s.writes ++ ids.map (fun i => .deleteRow "staticipaddress" i) }

/-- Create a StaticIPAddress row (`StaticIPAddress.objects.create` /
the create half of `get_or_create`). -/
def Store.createIp (s : Store) (a : AllocType) (ip : Option String)
    (subnet : Option Nat) : IpR × Store :=
  let r : IpR := ⟨s.nextId, a, ip, subnet⟩
  (r, { s with ips := s.ips ++ [r], nextId := s.nextId + 1,
               writes := s.writes ++ [.createRow "staticipaddress" r.id] })

/-- Create a Subnet row (the create half of `Subnet.objects.get_or_create`). -/
def Store.createSubnet (s : Store) (cidr : String) (vlan : Nat) : SubnetR × Store :=
  let r : SubnetR := ⟨s.nextId, cidr, cidr, vlan, none⟩
  (r, { s with subnets := s.subnets ++ [r], nextId := s.nextId + 1,
               writes := s.writes ++ [.createRow "subnet" r.id] })

/-- `Fabric.objects.create()`: a new fabric together with its default VLAN.
Returns the id of the fabric's default VLAN. -/
def Store.createFabric (s : Store) : Nat × Store :=
  let f := s.nextId
  let v := s.nextId + 1
  (v, { s with fabrics := s.fabrics ++ [⟨f, v⟩],
               vlans := s.vlans ++ [⟨v, f, 0⟩],
               nextId := s.nextId + 2,
               writes := s.writes ++ [.createRow "fabric" f, .createRow "vlan" v] })

/-- Create a VLAN row (the create half of `VLAN.objects.get_or_create`). -/
def Store.createVlan (s : Store) (fabric vid : Nat) : VlanR × Store :=
  let r : VlanR := ⟨s.nextId, fabric, vid⟩
  (r, { s with vlans := s.vlans ++ [r], nextId := s.nextId + 1,
               writes := s.writes ++ [.createRow "vlan" r.id] })

/-- Create an Interface row (the create half of
`PhysicalInterface.objects.get_or_create` and friends). -/
def Store.createIface (s : Store) (a : Iface) : Iface × Store :=
  let r : Iface := { a with id := s.nextId }
  (r, { s with ifaces := s.ifaces ++ [r], nextId := s.nextId + 1,
               writes := s.writes ++ [.createRow "interface" r.id] })

/-- `nic.delete()`: remove the interface row if present, its m2m address rows
and its appearances as a parent; the boot-interface foreign key is nulled by
the database (`SET_NULL`). -/
def Store.deleteIface (s : Store) (i : Nat) : Store :=
  if (s.ifaces.find? (fun a => a.id = i)).isSome then
    { s with ifaces := (s.ifaces.filter (fun a => ¬ (a.id = i))).map
                 (fun a => { a with parents := a.parents.filter (fun p => ¬ (p = i)) }),
             links := s.links.filter (fun l => ¬ (l.1 = i)),
             boots := s.boots.filter (fun b => ¬ (b.2 = i)),
             writes := s.writes ++ [.deleteRow "interface" i] }
  else s

/-- Queryset deletion of several interface rows. -/
def Store.deleteIfaces (s : Store) (ids : List Nat) : Store :=
  ids.foldl (fun t i => t.deleteIface i) s

/-- `fabric.delete()` for the fabric owning VLAN `v`: removes the fabric row
and all of its VLANs (used only on a freshly created, otherwise unreferenced
fabric). -/
def Store.deleteFabricOfVlan (s : Store) (v : Nat) : Store :=
  match s.vlans.find? (fun a => a.id = v) with
  | none => s
  | some vl =>
    let doomed := (s.vlans.filter (fun a => a.fabric = vl.fabric)).map (fun a => a.id)
    { s with fabrics := s.fabrics.filter (fun f => ¬ (f.id = vl.fabric)),
             vlans := s.vlans.filter (fun a => ¬ (a.fabric = vl.fabric)),
             writes := s.writes ++ [.deleteRow "fabric" vl.fabric]
                        ++ doomed.map (fun i => .deleteRow "vlan" i) }

/-! ## Ordering: insertion sort and the topological batch sort -/

/-- Insert into a sorted list (used to model Python's `sorted`). -/
def insort {α : Type} [LinearOrder α] (x : α) : List α → List α
  | [] => [x]
  | y :: ys => if x ≤ y then x :: y :: ys else y :: insort x ys

/-- Python's `sorted(list(items))`, as an insertion sort. -/
def sortList {α : Type} [LinearOrder α] : List α → List α
  | [] => []
  | x :: xs => insort x (sortList xs)

/-- Modelled from the spec: `provisioningserver.utils.sorttop` is not under
src/ (only its caller is).  Per §4.5 step 1 it topologically sorts items by
the dependency relation, children strictly after all parents, yielding
batches of simultaneously-ready items; dependencies that are not themselves
keys are considered satisfied.  A dependency cycle raises (`ValueError`),
modelled as an `error` result.  The fuel argument bounds the recursion by
the number of items. -/
def sorttopGo {α : Type} [DecidableEq α] :
    Nat → List (α × List α) → Except String (List (List α))
  | _, [] => .ok []
  | 0, _ :: _ => .error "sorttop: cycle detected"
  | fuel + 1, p :: ps =>
    let pending := p :: ps
    let keys := pending.map (fun q => q.1)
    let ready := pending.filter (fun q => q.2.all (fun d => ¬ keys.contains d))
    if ready.isEmpty then .error "sorttop: cycle detected"
    else
      match sorttopGo fuel (pending.filter
          (fun q => ¬ ((ready.map (fun r => r.1)).contains q.1))) with
      | .ok rest => .ok ((ready.map (fun r => r.1)) :: rest)
      | .error e => .error e

/-- `sorttop(data)`. -/
def sorttop {α : Type} [DecidableEq α] (data : List (α × List α)) :
    Except String (List (List α)) :=
  sorttopGo data.length data

/-- Lines 58-61 and 66: the construction order of the desired interfaces —
topological batches by the parent relation, each batch sorted
lexicographically, flattened. -/
def processOrderNames (interfaces : List (String × IfaceCfg)) :
    Except String (List String) :=
  match sorttop (interfaces.map (fun p => (p.1, p.2.parents))) with
  | .ok layers => .ok ((layers.map sortList).flatten)
  | .error e => .error e

/-- Lines 92-101: the deletion order over the remaining current interfaces —
dependencies are each interface's parents restricted to the remaining set;
batches sorted, flattened, and reversed (children deleted before parents). -/
def deletionOrderIds (s : Store) (current : List Nat) :
    Except String (List Nat) :=
  let deps := current.map (fun i =>
    (i, ((s.findIface? i).map
          (fun a => a.parents.filter (fun p => current.contains p))).getD []))
  match sorttop deps with
  | .ok layers => .ok (((layers.map sortList).flatten).reverse)
  | .error e => .error e

/-! ## The link reconciler (`update_links` and helpers) -/

/-- The interface's live `vlan_id` as read from the store. -/
def ifaceVlanId (s : Store) (i : Nat) : Option Nat :=
  (s.findIface? i).bind (fun a => a.vlan)

/-- Lines 476-482 (the `node` argument is unused in the source as well). -/
def get_alloc_type_from_ip_addresses (node : Nat) (alloc : AllocType)
    (ipAddresses : List IpR) : Option IpR :=
  ipAddresses.find? (fun r => r.allocType = alloc)

/-- Lines 485-490. -/
def get_ip_address_from_ip_addresses (node : Nat) (ip : String)
    (ipAddresses : List IpR) : Option IpR :=
  ipAddresses.find? (fun r => r.ip = some ip)

/-- The VLAN of an address row's subnet, if any. -/
def subnetVlanOf (s : Store) (r : IpR) : Option Nat :=
  r.subnet.bind (fun sid => (s.findSubnet? sid).map (fun sub => sub.vlan))

/-- The loop of lines 493-501: first STICKY wins, else the last DISCOVERED
(`second_best` is overwritten on every DISCOVERED row). -/
def guessBestGo (s : Store) : List Nat → Option Nat → Option Nat
  | [], second => second
  | i :: rest, second =>
    match s.findIp? i with
    | none => guessBestGo s rest second
    | some r =>
      if r.allocType = AllocType.sticky then subnetVlanOf s r
      else if r.allocType = AllocType.discovered then
        guessBestGo s rest (subnetVlanOf s r)
      else guessBestGo s rest second

/-- Lines 493-501.  The candidate set is passed as the list of address-row
ids in insertion order (Python hands over a `set` of ORM objects). -/
def guess_best_vlan_from_ip_addresses (s : Store) (ids : List Nat) : Option Nat :=
  guessBestGo s ids none

/-- Lines 460-473. -/
def get_interface_vlan_from_links (s : Store) (links : List LinkCfg) : Option Nat :=
  let cidrs := links.filterMap (fun l =>
    if (l.mode = "static" ∨ l.mode = "dhcp") ∧ l.address.isSome
    then l.address.map (fun a => a.2) else none)
  (s.subnets.find? (fun sub => cidrs.contains sub.cidr)).map (fun sub => sub.vlan)

/-- Modelled from the spec: `Interface.unlink_ip_address` (maasserver models,
not under src/) — "any previously-linked address not re-declared by this pass
is unlinked from the interface" (§4.5 step 3). -/
def unlink_ip_address (s : Store) (i ip : Nat) : Store :=
  s.removeLink i ip

/-- `updated_ip_addresses.add(x)` (set semantics, insertion order kept). -/
def addUpdated (updated : List Nat) (x : Nat) : List Nat :=
  if updated.contains x then updated else updated ++ [x]

/-- Lines 521-574: the body of one `dhcp` link iteration.  Returns the
updated store, the remaining `current_ip_addresses` snapshot and the
updated `updated_ip_addresses`. -/
def dhcpLinkBody (node i : Nat) (forceVlan : Bool) (vlanVar : Option Nat)
    (address : Option (String × String)) (s : Store) (current : List IpR)
    (updated : List Nat) : Store × List IpR × List Nat :=
  -- lines 521-532: ensure a DHCP address record exists
  let step1 : IpR × Store × List IpR :=
    match get_alloc_type_from_ip_addresses node AllocType.dhcp current with
    | none =>
      let (r, s) := s.createIp AllocType.dhcp none none
      let s := s.addWrite (.updateRow "staticipaddress" r.id)
      let s := s.addLink i r.id
      (r, s, current)
    | some r => (r, s, current.filter (fun x => ¬ (x.id = r.id)))
  match step1 with
  | (dhcpAddr, s, current) =>
    match address with
    | some (ipAddr, cidr) =>
      -- lines 536-544: resolve/create the subnet
      let step2 : SubnetR × Store :=
        match s.subnets.find? (fun sub => sub.cidr = cidr) with
        | some sub => (sub, s)
        | none => s.createSubnet cidr (vlanVar.getD 0)
      match step2 with
      | (subnet, s) =>
        if forceVlan ∧ ¬ (some subnet.vlan = ifaceVlanId s i) then
          -- lines 548-563: log and skip this link
          (s.addLog (.vlanMismatch ipAddr i subnet.id), current, updated)
        else
          -- lines 566-573: upsert the DISCOVERED address
          let step3 : IpR × Store :=
            match s.ips.find? (fun r => r.ip = some ipAddr) with
            | some r =>
              let r2 := { r with allocType := AllocType.discovered,
                                 subnet := some subnet.id }
              (r2, (s.setIp r2).addWrite (.updateRow "staticipaddress" r.id))
            | none => s.createIp AllocType.discovered (some ipAddr)
                (some subnet.id)
          match step3 with
          | (ipRow, s) =>
            let s := s.addLink i ipRow.id
            (s, current, addUpdated updated dhcpAddr.id)
    | none => (s, current, addUpdated updated dhcpAddr.id)

/-- Lines 634-645: make sure all interfaces assigned to the address belong
to this node (detach those of other nodes), save the row as STICKY on the
link's subnet, link it to the interface and record it as updated. -/
def staticUpsertTail (node i subnetId : Nat) (ipRow : IpR) (s : Store)
    (current : List IpR) (updated : List Nat) : Store × List IpR × List Nat :=
  -- lines 634-638: detach interfaces of other nodes
  let doomed := (s.ifaces.filter (fun a =>
      ¬ (a.node = node) ∧ s.links.contains (a.id, ipRow.id))).map
      (fun a => a.id)
  let s := doomed.foldl (fun t j => t.removeLink j ipRow.id) s
  -- lines 639-641
  let r3 := { ipRow with allocType := AllocType.sticky, subnet := some subnetId }
  let s := (s.setIp r3).addWrite (.updateRow "staticipaddress" r3.id)
  -- lines 643-645
  let s := s.addLink i r3.id
  (s, current, addUpdated updated r3.id)

/-- Lines 613-645: resolve which address row the static link refers to
(the interface's own current address, an existing row for the ip, or a
fresh STICKY row) and hand it to the upsert tail. -/
def staticResolveAndUpsert (node i subnetId : Nat) (ipAddr : String)
    (s : Store) (current : List IpR) (updated : List Nat) :
    Store × List IpR × List Nat :=
  let step3 : IpR × Store × List IpR :=
    match get_ip_address_from_ip_addresses node ipAddr current with
    | none =>
      match s.ips.find? (fun r => r.ip = some ipAddr) with
      | some r =>
        let r2 := { r with allocType := AllocType.sticky, subnet := some subnetId }
        (r2, (s.setIp r2).addWrite (.updateRow "staticipaddress" r.id), current)
      | none =>
        let (r, s) := s.createIp AllocType.sticky (some ipAddr) (some subnetId)
        (r, s, current)
    | some r => (r, s, current.filter (fun x => ¬ (x.id = r.id)))
  match step3 with
  | (ipRow, s, current) => staticUpsertTail node i subnetId ipRow s current updated

/-- Lines 575-645: the body of one `static` link iteration. -/
def staticLinkBody (node i : Nat) (forceVlan : Bool) (vlanVar : Option Nat)
    (ipAddr cidr : String) (gateway : Option String) (gatewayInCidr : Bool)
    (s : Store) (current : List IpR) (updated : List Nat) :
    Store × List IpR × List Nat :=
  -- lines 579-584
  let step2 : SubnetR × Store :=
    match s.subnets.find? (fun sub => sub.cidr = cidr) with
    | some sub => (sub, s)
    | none => s.createSubnet cidr (vlanVar.getD 0)
  match step2 with
  | (subnet, s) =>
    if forceVlan ∧ ¬ (some subnet.vlan = ifaceVlanId s i) then
      -- lines 588-602: log and skip this link
      (s.addLog (.vlanMismatch ipAddr i subnet.id), current, updated)
    else
      -- lines 604-611: fill the gateway if unset and inside the CIDR
      let s :=
        if subnet.gatewayIp = none ∧ gateway.isSome ∧ gatewayInCidr then
          (s.setSubnet { subnet with gatewayIp := gateway }).addWrite
            (.updateRow "subnet" subnet.id)
        else s
      staticResolveAndUpsert node i subnet.id ipAddr s current updated

/-- The `for link in links` loop of lines 520-645 followed by the trailing
unlink loop of lines 647-650.  State: store, the remaining
`current_ip_addresses` snapshot, and `updated_ip_addresses`. -/
def updateLinksGo (node i : Nat) (forceVlan : Bool) (vlanVar : Option Nat) :
    List LinkCfg → Store → List IpR → List Nat → Store × List Nat
  | [], s, current, updated =>
    (current.foldl (fun t r => unlink_ip_address t i r.id) s, updated)
  | link :: rest, s, current, updated =>
    if link.mode = "dhcp" then
      match dhcpLinkBody node i forceVlan vlanVar link.address s current
          updated with
      | (s, current, updated) =>
        updateLinksGo node i forceVlan vlanVar rest s current updated
    else if link.mode = "static" then
      match link.address with
      | none =>
        -- unreachable for well-formed input: the source would fail parsing
        -- `IPNetwork(None)`
        updateLinksGo node i forceVlan vlanVar rest s current updated
      | some (ipAddr, cidr) =>
        match staticLinkBody node i forceVlan vlanVar ipAddr cidr
            link.gateway link.gatewayInCidr s current updated with
        | (s, current, updated) =>
          updateLinksGo node i forceVlan vlanVar rest s current updated
    else
      updateLinksGo node i forceVlan vlanVar rest s current updated

/-- Lines 504-652: `update_links`. -/
def update_links (node i : Nat) (links : List LinkCfg)
    (forceVlan useIfaceVlan : Bool) (s : Store) : Store × List Nat :=
  -- lines 508-510: drop DISCOVERED addresses currently linked
  let doomed := ((s.linkedIps i).filter
      (fun r => r.allocType = AllocType.discovered)).map (fun r => r.id)
  let s := s.deleteIps doomed
  -- line 511
  let current := s.linkedIps i
  -- lines 513-519
  let vstep : Option Nat × Store :=
    if useIfaceVlan ∧ (ifaceVlanId s i).isSome then (ifaceVlanId s i, s)
    else if ¬ links.isEmpty then
      let (v, s) := s.createFabric
      let s :=
        match s.findIface? i with
        | some a => (s.setIface { a with vlan := some v }).addWrite
            (.updateRow "interface" i)
        | none => s
      (some v, s)
    else (none, s)
  match vstep with
  | (vlanVar, s) => updateLinksGo node i forceVlan vlanVar links s current []

/-! ## Hint-based and link-based VLAN guessing -/

/-- Lines 433-457: `find_related_interface`. -/
def find_related_interface (s : Store) (node : Nat) (ownInterface : Bool)
    (relatedIfname : Option String) (relatedMac : Option String) : Option Iface :=
  match s.ifaces.find? (fun a => a.itype = "physical"
      ∧ (relatedMac = none ∨ some a.mac = relatedMac)
      ∧ (¬ ownInterface ∨ a.node = node)) with
  | some a => some a
  | none =>
    if relatedMac.isSome then
      s.ifaces.find? (fun a => a.itype = "bridge"
        ∧ (relatedMac = none ∨ some a.mac = relatedMac)
        ∧ (¬ ownInterface ∨ a.node = node)
        ∧ some a.name = relatedIfname)
    else none

/-- Lines 218-227: the relevance filter on hints — only hints for this
ifname where both sides were untagged. -/
def hintFilter (ifname : String) (h : HintR) : Bool :=
  h.ifname = some ifname ∧ h.vid = none ∧ h.relatedVid = none

/-- Whether the loop body of lines 230-246 reassigns `related_interface`
for this hint (remote kinds need a mac; own kinds always reassign). -/
def hintReassigns (h : HintR) : Bool :=
  ((h.hint = some "on_remote_network" ∨ h.hint = some "routable_to")
    ∧ ¬ (h.relatedMac = none))
  ∨ h.hint = some "rx_own_beacon_on_other_interface"
  ∨ h.hint = some "same_local_fabric_as"

/-- The related interface a reassigning hint resolves to (lines 234-246);
`none` for hints that do not reassign. -/
def resolveHintRelated (s : Store) (node : Nat) (h : HintR) : Option Iface :=
  if (h.hint = some "on_remote_network" ∨ h.hint = some "routable_to")
      ∧ ¬ (h.relatedMac = none) then
    find_related_interface s node false h.relatedIfname h.relatedMac
  else if h.hint = some "rx_own_beacon_on_other_interface"
      ∨ h.hint = some "same_local_fabric_as" then
    find_related_interface s node true h.relatedIfname none
  else none

/-- The loop of lines 228-253: `related_interface` is retained across
iterations when a hint does not reassign it. -/
def guessVlanFromHintsGo (s : Store) (node : Nat) :
    List HintR → Option Iface → Option Nat
  | [], _ => none
  | h :: rest, rel =>
    let rel' := if hintReassigns h then resolveHintRelated s node h else rel
    match rel' with
    | some a =>
      match a.vlan with
      | some v => some v
      | none => guessVlanFromHintsGo s node rest rel'
    | none => guessVlanFromHintsGo s node rest rel'

/-- Lines 212-253: `guess_vlan_from_hints`. -/
def guess_vlan_from_hints (s : Store) (node : Nat) (ifname : String)
    (hints : List HintR) : Option Nat :=
  guessVlanFromHintsGo s node (hints.filter (hintFilter ifname)) none

/-- The claim's reading of `guess_vlan_from_hints`: among the hints for this
ifname with both `vid` and `related_vid` absent, return the VLAN of the
first matching related interface that has one. -/
def guessVlanFromHintsSpec (s : Store) (node : Nat) (ifname : String)
    (hints : List HintR) : Option Nat :=
  (hints.filter (hintFilter ifname)).findSome?
    (fun h => (resolveHintRelated s node h).bind (fun a => a.vlan))

/-- Lines 389-408: `guess_vlan_for_interface`.  `VLAN.objects.get_default_vlan()`
is the store's `defaultVlan` field (the default VLAN of the default fabric). -/
def guess_vlan_for_interface (s : Store) (node : Nat) (cfg : IfaceCfg) :
    Option Nat × Store :=
  match get_interface_vlan_from_links s cfg.links with
  | some v => (some v, s)
  | none =>
    let defaultVlan := s.defaultVlan
    let interfacesOnDefaultVlan :=
      (s.ifaces.filter (fun a => a.vlan = some defaultVlan)).length
    if interfacesOnDefaultVlan = 0 then (some defaultVlan, s)
    else
      let (v, s) := s.createFabric
      (some v, s)

/-! ## Physical interfaces -/

/-- Lines 200-210: `update_physical_links`. -/
def update_physical_links (node i : Nat) (cfg : IfaceCfg) (newVlan : Option Nat)
    (updateFields : List String) (s : Store) : List String × Store :=
  match update_links node i cfg.links false true s with
  | (s, updatedIds) =>
    match guess_best_vlan_from_ip_addresses s updatedIds with
    | some linkedVlan =>
      let s :=
        match s.findIface? i with
        | some a => s.setIface { a with vlan := some linkedVlan }
        | none => s
      let updateFields := if updateFields.contains "vlan" then updateFields
                          else updateFields ++ ["vlan"]
      let s :=
        match newVlan with
        | some nv => if ¬ (linkedVlan = nv) then s.deleteFabricOfVlan nv else s
        | none => s
      (updateFields, s)
    | none => (updateFields, s)

/-- Lines 135-197: `update_physical_interface`. -/
def update_physical_interface (node : Nat) (name : String) (cfg : IfaceCfg)
    (createFabrics : Bool) (hints : Option (List HintR)) (s : Store) :
    Nat × Store :=
  let macAddress := cfg.mac
  let isEnabled := cfg.enabled
  -- lines 148-154: same name, different mac on this node: delete
  let doomed := (s.ifaces.filter (fun a => a.itype = "physical" ∧ a.node = node
      ∧ a.name = name ∧ ¬ (a.mac = macAddress))).map (fun a => a.id)
  let s := s.deleteIfaces doomed
  -- lines 155-163: get_or_create by mac
  let gstep : Iface × Bool × Store :=
    match s.ifaces.find? (fun a => a.itype = "physical" ∧ a.mac = macAddress) with
    | some a => (a, false, s)
    | none =>
      let (r, s) := s.createIface
        ⟨0, node, name, macAddress, "physical", none, isEnabled, [], true⟩
      (r, true, s)
  match gstep with
  | (iface0, created, s) =>
  -- lines 164-176: the VLAN gate
  let vstep : Option Nat × Store :=
    if createFabrics ∧ iface0.vlan = none ∧ isEnabled then
      let hinted :=
        match hints with
        | some hs => guess_vlan_from_hints s node name hs
        | none => none
      match hinted with
      | some v => (some v, s)
      | none => guess_vlan_for_interface s node cfg
    else (none, s)
  match vstep with
  | (newVlan, s) =>
  let fstep1 : Iface × List String × Store :=
    match newVlan with
    | some v =>
      let i2 := { iface0 with vlan := some v }
      (i2, ["vlan"], s.setIface i2)
    | none => (iface0, [], s)
  match fstep1 with
  | (iface1, updateFields, s) =>
  -- lines 177-186: ownership move and rename when the row pre-existed
  let fstep2 : Iface × List String × Store :=
    if ¬ created then
      let mstep : Iface × List String × Store :=
        if ¬ (iface1.node = node) then
          let linked := (s.linkedIps iface1.id).map (fun r => r.id)
          let s := s.deleteIps linked
          let i2 := { iface1 with node := node }
          (i2, updateFields ++ ["node"], s.setIface i2)
        else (iface1, updateFields, s)
      match mstep with
      | (iface2, updateFields, s) =>
        let i3 := { iface2 with name := name }
        (i3, updateFields ++ ["name"], s.setIface i3)
    else (iface1, updateFields, s)
  match fstep2 with
  | (iface2, updateFields, s) =>
  -- lines 187-189
  let fstep3 : Iface × List String × Store :=
    if ¬ (iface2.enabled = isEnabled) then
      let i4 := { iface2 with enabled := isEnabled }
      (i4, updateFields ++ ["enabled"], s.setIface i4)
    else (iface2, updateFields, s)
  match fstep3 with
  | (iface3, updateFields, s) =>
  -- lines 191-194
  let lstep : List String × Store :=
    if createFabrics then update_physical_links node iface3.id cfg newVlan updateFields s
    else (updateFields, s)
  match lstep with
  | (updateFields, s) =>
  -- lines 195-196
  let s :=
    if ¬ updateFields.isEmpty then s.addWrite (.updateRow "interface" iface3.id)
    else s
  (iface3.id, s)

/-! ## Child (vlan / bond / bridge) interfaces -/

/-- The body of the `for parent_nic in parent_nics` loop of lines 383-386:
assign the inferred VLAN to a parent whose VLAN differs. -/
def parentVlanStep (linkedVlan : Nat) (t : Store) (p : Iface) : Store :=
  match t.findIface? p.id with
  | some pr =>
    if ¬ (pr.vlan = some linkedVlan) then
      (t.setIface { pr with vlan := some linkedVlan }).addWrite
        (.updateRow "interface" pr.id)
    else t
  | none => t

/-- Lines 370-387: `update_parent_vlans`. -/
def update_parent_vlans (node i : Nat) (parentNics : List Iface)
    (updateIpAddresses : List Nat) (s : Store) : Store :=
  match guess_best_vlan_from_ip_addresses s updateIpAddresses with
  | none => s
  | some linkedVlan =>
    let s :=
      match s.findIface? i with
      | some a => (s.setIface { a with vlan := some linkedVlan }).addWrite
          (.updateRow "interface" i)
      | none => s
    parentNics.foldl (parentVlanStep linkedVlan) s

/-- Lines 411-430: `configure_vlan_from_links`. -/
def configure_vlan_from_links (s : Store) (node i : Nat)
    (parentNics : List Iface) (links : List LinkCfg) : Bool × Store :=
  match get_interface_vlan_from_links s links with
  | none =>
    match parentNics with
    | [] => (false, s)
    | p :: _ =>
      let s :=
        match s.findIface? i with
        | some a => (s.setIface { a with vlan := p.vlan }).addWrite
            (.updateRow "interface" i)
        | none => s
      (true, s)
  | some v =>
    let s :=
      match s.findIface? i with
      | some a => (s.setIface { a with vlan := some v }).addWrite
          (.updateRow "interface" i)
      | none => s
    (true, s)

/-- Lines 288-304 of `update_vlan_interface`: find or create the
VLANInterface row and reconcile its links.  The managers
`VLANInterface.objects.filter(...).first()` / `get_or_create` with a
`parents` argument live outside src/; modelled from the spec, an existing
row with this node, name, parent and tag is reused, otherwise one is
created on the parent (carrying the parent's mac). -/
def updateVlanIfaceTail (node : Nat) (name : String) (vid : Nat) (cfg : IfaceCfg)
    (vlanRow : VlanR) (parentNic : Iface) (s : Store) :
    Except String (Option Nat × Store) :=
  let existing := s.ifaces.find? (fun a => a.itype = "vlan" ∧ a.node = node
      ∧ a.name = name ∧ a.parents.contains parentNic.id
      ∧ (a.vlan.bind (fun v => (s.findVlan? v).map (fun r => r.vid))) = some vid)
  let istep : Nat × Store :=
    match existing with
    | none =>
      match s.ifaces.find? (fun a => a.itype = "vlan" ∧ a.node = node
          ∧ a.name = name ∧ a.parents = [parentNic.id]
          ∧ a.vlan = some vlanRow.id) with
      | some a => (a.id, s)
      | none =>
        let (r, s) := s.createIface
          ⟨0, node, name, parentNic.mac, "vlan", some vlanRow.id, true,
           [parentNic.id], true⟩
        (r.id, s)
    | some a =>
      if ¬ (a.vlan = some vlanRow.id) then
        (a.id, (s.setIface { a with vlan := some vlanRow.id }).addWrite
          (.updateRow "interface" a.id))
      else (a.id, s)
  match istep with
  | (ifaceId, s) =>
    match update_links node ifaceId cfg.links true true s with
    | (s, _) => .ok (some ifaceId, s)

/-- Lines 256-304: `update_vlan_interface`.  `config["parents"][0]` on an
empty list and `Interface.objects.get` with no row raise, as does reading
`parent_nic.vlan.fabric_id` when the parent has no VLAN. -/
def update_vlan_interface (node : Nat) (name : String) (cfg : IfaceCfg)
    (s : Store) : Except String (Option Nat × Store) :=
  let vid := cfg.vid
  match cfg.parents with
  | [] => .error "IndexError: vlan interface has no parent"
  | parentName :: _ =>
    match s.ifaces.find? (fun a => a.node = node ∧ a.name = parentName) with
    | none => .error "Interface matching query does not exist"
    | some parentNic =>
      match parentNic.vlan with
      | none => .error "AttributeError: NoneType has no attribute fabric_id"
      | some pv =>
        match s.findVlan? pv with
        | none => .error "AttributeError: NoneType has no attribute fabric_id"
        | some parentVlan =>
          match get_interface_vlan_from_links s cfg.links with
          | some lv =>
            match s.findVlan? lv with
            | none => .error "AttributeError: vlan row missing"
            | some lvr =>
              -- lines 269-280: non-fatal mismatch warnings
              let s := if ¬ (parentVlan.fabric = lvr.fabric) then
                  s.addLog (.fabricMismatch parentNic.id name) else s
              let s := if ¬ (lvr.vid = vid) then
                  s.addLog (.vidMismatch name vid lvr.vid) else s
              updateVlanIfaceTail node name vid cfg lvr parentNic s
          | none =>
            -- lines 281-286: reuse/create a VLAN at the tag in the
            -- parent's fabric
            let vstep : VlanR × Store :=
              match s.vlans.find? (fun a => a.fabric = parentVlan.fabric
                  ∧ a.vid = vid) with
              | some a => (a, s)
              | none => s.createVlan parentVlan.fabric vid
            match vstep with
            | (vlanRow, s) => updateVlanIfaceTail node name vid cfg vlanRow parentNic s

/-- Modelled from the spec: `Interface.objects.get_interfaces_on_node_by_name`
(maasserver models, not under src/) fetches the node's interfaces carrying
the given names. -/
def get_interfaces_on_node_by_name (s : Store) (node : Nat)
    (ifnames : List String) : List Iface :=
  ifnames.filterMap (fun n => s.ifaces.find? (fun a => a.node = node ∧ a.name = n))

/-- Modelled from the spec: `child_type.objects.get_or_create_on_node`
(maasserver models, not under src/) — "Interfaces are created the first time
the Reconciler sees their name for a node" (§3); an existing row with this
node and name is reused. -/
def get_or_create_on_node (s : Store) (node : Nat) (name mac : String)
    (childType : String) (parentNics : List Iface) : Iface × Store :=
  match s.ifaces.find? (fun a => a.itype = childType ∧ a.node = node
      ∧ a.name = name) with
  | some a => (a, s)
  | none =>
    s.createIface ⟨0, node, name, mac, childType, none, true,
      parentNics.map (fun p => p.id), true⟩

/-- Lines 307-347: `update_child_interface`. -/
def update_child_interface (node : Nat) (name : String) (cfg : IfaceCfg)
    (childType : String) (s : Store) : Option Nat × Store :=
  let parentNics := get_interfaces_on_node_by_name s node cfg.parents
  if parentNics.isEmpty ∧ ¬ (childType = "bridge") then (none, s)
  else
    match get_or_create_on_node s node name cfg.mac childType parentNics with
    | (iface, s) =>
      match configure_vlan_from_links s node iface.id parentNics cfg.links with
      | (foundVlan, s) =>
        match update_links node iface.id cfg.links false foundVlan s with
        | (s, updatedIds) =>
          (some iface.id, update_parent_vlans node iface.id parentNics updatedIds s)

/-- Lines 350-357. -/
def update_bond_interface (node : Nat) (name : String) (cfg : IfaceCfg)
    (s : Store) : Option Nat × Store :=
  update_child_interface node name cfg "bond" s

/-- Lines 360-367. -/
def update_bridge_interface (node : Nat) (name : String) (cfg : IfaceCfg)
    (s : Store) : Option Nat × Store :=
  update_child_interface node name cfg "bridge" s

/-! ## Top level -/

/-- Lines 109-132: `update_interface` dispatch; an unknown type raises
`ValueError` — but only after the `not create_fabrics` deferral branch. -/
def update_interface (node : Nat) (name : String) (cfg : IfaceCfg)
    (createFabrics : Bool) (hints : Option (List HintR)) (s : Store) :
    Except String (Option Nat × Store) :=
  if cfg.itype = "physical" then
    match update_physical_interface node name cfg createFabrics hints s with
    | (i, s) => .ok (some i, s)
  else if ¬ createFabrics then
    .ok (none, s)
  else if cfg.itype = "vlan" then
    update_vlan_interface node name cfg s
  else if cfg.itype = "bond" then
    .ok (update_bond_interface node name cfg s)
  else if cfg.itype = "bridge" then
    .ok (update_bridge_interface node name cfg s)
  else
    .error ("Unkwown interface type " ++ cfg.itype ++ " for " ++ name)

/-- Modelled from the spec: `Interface.update_discovery_state`,
`parse_interfaces_details` and `update_interface_details` (maasserver
models / hooks, not under src/) configure neighbour-discovery reporting and
hardware details; §4.5's reconciliation algorithm assigns them no effect on
the Interface/VLAN/Fabric/Subnet/Address rows, so they are the identity. -/
def update_discovery_state (s : Store) : Store := s

/-- Modelled from the spec: see `update_discovery_state`. -/
def update_interface_details (s : Store) : Store := s

/-- The `for name in flatten(process_order)` loop of lines 66-83; `current`
carries the ids of `current_interfaces` not yet claimed. -/
def processNames (node : Nat) (interfaces : List (String × IfaceCfg))
    (hints : Option (List HintR)) (createFabrics : Bool) :
    List String → Store → List Nat → Except String (Store × List Nat)
  | [], s, current => .ok (s, current)
  | n :: rest, s, current =>
    match interfaces.find? (fun p => p.1 = n) with
    | none =>
      -- unreachable: every name in the order is a key of the mapping
      processNames node interfaces hints createFabrics rest s current
    | some p =>
      match update_interface node n p.2 createFabrics hints s with
      | .error e => .error e
      | .ok (none, s) => processNames node interfaces hints createFabrics rest s current
      | .ok (some i, s) =>
        let s := update_interface_details (update_discovery_state s)
        processNames node interfaces hints createFabrics rest s
          (current.filter (fun x => ¬ (x = i)))

/-- The deletion loop of lines 102-105, with the boot-interface clearing of
lines 103-104 (the in-memory `node.boot_interface = None` applied eagerly,
`node.save()` recorded by the caller). -/
def deleteNames (node : Nat) : List Nat → Store → Store
  | [], s => s
  | i :: rest, s =>
    let s :=
      if s.boots.contains (node, i) then
        { s with boots := s.boots.filter (fun b => ¬ (b = (node, i))) }
      else s
    deleteNames node rest (s.deleteIface i)

/-- Lines 26-106: `update_node_interfaces`.  The `@transactional` wrapper
means an error aborts the pass and commits nothing: the `Except.error`
result carries no store. -/
def update_node_interfaces (node : Nat) (interfaces : List (String × IfaceCfg))
    (hints : Option (List HintR)) (createFabrics : Bool) (s : Store) :
    Except String Store :=
  -- lines 44-48: the node's interfaces, ordered by id
  let current := sortList ((s.ifaces.filter (fun a => a.node = node)).map
      (fun a => a.id))
  match processOrderNames interfaces with
  | .error e => .error e
  | .ok order =>
    match processNames node interfaces hints createFabrics order s current with
    | .error e => .error e
    | .ok (s, current) =>
      if ¬ createFabrics then .ok s
      else
        match deletionOrderIds s current with
        | .error e => .error e
        | .ok dorder =>
          let s := deleteNames node dorder s
          .ok (s.addWrite (.updateRow "node" node))

/-! ## Beaconing: hint engine and multicast scheduler (spec-level models) -/

/-- A derived topology hint as produced by the hint engine. -/
structure TopologyHint where
  ifname : Option String
  vid : Option Nat
  hint : String
  relatedIfname : Option String
  relatedVid : Option Nat
  relatedMac : Option String
deriving DecidableEq, Repr

/-- Modelled from the spec: the hint derivation of
`BeaconingSocketProtocol.beaconReceived` (provisioningserver services, not
under src/ — only its tests are) for a beacon whose uuid matches a tx-table
entry, §4.3 rows 1-2: received back on the transmitting interface it yields
`rx_own_beacon_on_tx_interface`; received on a different local interface
with neither side vlan-tagged it yields `rx_own_beacon_on_other_interface`;
hints omit unset fields (`none`). -/
def hintsForOwnBeacon (txIfname : String) (txVid : Option Nat)
    (rxIfname : String) (rxVid : Option Nat) : List TopologyHint :=
  if rxIfname = txIfname then
    [⟨some rxIfname, rxVid, "rx_own_beacon_on_tx_interface",
      some txIfname, txVid, none⟩]
  else if txVid = none ∧ rxVid = none then
    [⟨some rxIfname, none, "rx_own_beacon_on_other_interface",
      some txIfname, none, none⟩]
  else []

/-- Modelled from the spec: the tx-table lookup of §4.2 — a received beacon
whose uuid matches the tx-table is our own echoing back and is handed to
the self-hint derivation rather than treated as external traffic.  The
tx-table maps a uuid to the sending interface name and its optional vlan
tag; remote (non-own) beacons are outside this model's scope. -/
def beaconReceivedOwn (txQueue : List (String × (String × Option Nat)))
    (uuid : String) (rxIfname : String) (rxVid : Option Nat) :
    List TopologyHint :=
  match txQueue.find? (fun p => p.1 = uuid) with
  | some p => hintsForOwnBeacon p.2.1 p.2.2 rxIfname rxVid
  | none => []

/-- The scheduler's fixed window, in seconds (§4.4: "on the order of a few
seconds"; the tests fix five). -/
def schedulerWindow : Nat := 5

/-- Modelled from the spec: the Multicast Scheduler of §4.4
(`BeaconingSocketProtocol.queueMulticastBeaconing`, not under src/ — only
its tests are).  Requests are `(monotonic time, solicitation?)` pairs in
arrival order; a request with no open window opens one closing a full
window later; requests inside an open window coalesce, solicitation
winning; at the close the single burst for the window is emitted and the
next request opens a new window.  Returns the emitted bursts as
`(close time, solicitation?)` pairs. -/
def schedGo : Option (Nat × Bool) → List (Nat × Bool) → List (Nat × Bool)
  | none, [] => []
  | some w, [] => [w]
  | none, (t, sol) :: rest => schedGo (some (t + schedulerWindow, sol)) rest
  | some (c, wsol), (t, sol) :: rest =>
    if t < c then schedGo (some (c, wsol || sol)) rest
    else (c, wsol) :: schedGo (some (t + schedulerWindow, sol)) rest

/-- The bursts emitted for a whole request trace, starting with no open
window. -/
def multicastSchedule (reqs : List (Nat × Bool)) : List (Nat × Bool) :=
  schedGo none reqs

/-! ## Helper lemmas about the store operations -/

theorem find?_eq_of_unique {α : Type} (l : List α) (p : α → Bool) (a : α)
    (hmem : a ∈ l) (hpa : p a = true)
    (huniq : ∀ b ∈ l, p b = true → b = a) : l.find? p = some a := by
  induction l with
  | nil => cases hmem
  | cons x xs ih =>
    by_cases hx : p x = true
    · have : x = a := huniq x (by simp) hx
      subst this
      simp [List.find?, hx]
    · rcases List.mem_cons.mp hmem with h | h
      · subst h; exact absurd hpa hx
      · simp only [List.find?]
        rw [Bool.not_eq_true] at hx
        rw [hx]
        exact ih h (fun b hb hpb => huniq b (List.mem_cons_of_mem _ hb) hpb)

theorem Store.findIface?_addWrite (s : Store) (e : WEvent) (i : Nat) :
    (s.addWrite e).findIface? i = s.findIface? i := rfl

theorem Store.findIface?_addLog (s : Store) (e : LogE) (i : Nat) :
    (s.addLog e).findIface? i = s.findIface? i := rfl

theorem find?_map_setIface (l : List Iface) (a : Iface) (x : Nat) (hx : ¬ (x = a.id)) :
    (l.map (fun b => if b.id = a.id then a else b)).find? (fun b => b.id = x)
      = l.find? (fun b => b.id = x) := by
  induction l with
  | nil => rfl
  | cons y ys ih =>
    by_cases hy : y.id = a.id
    · have h1 : ¬ ((fun (b : Iface) => decide (b.id = x)) a = true) := by
        simp only [decide_eq_true_eq]
        intro h; exact hx h.symm
      have h2 : ¬ ((fun (b : Iface) => decide (b.id = x)) y = true) := by
        simp only [decide_eq_true_eq]
        intro h; exact hx (hy ▸ h).symm
      simp only [List.map_cons, if_pos hy]
      rw [List.find?_cons_of_neg (p := fun (b : Iface) => decide (b.id = x)) _ h1,
        List.find?_cons_of_neg (p := fun (b : Iface) => decide (b.id = x)) _ h2, ih]
    · by_cases hyx : ((fun (b : Iface) => decide (b.id = x)) y = true)
      · simp only [List.map_cons, if_neg hy]
        rw [List.find?_cons_of_pos (p := fun (b : Iface) => decide (b.id = x)) _ hyx,
          List.find?_cons_of_pos (p := fun (b : Iface) => decide (b.id = x)) _ hyx]
      · simp only [List.map_cons, if_neg hy]
        rw [List.find?_cons_of_neg (p := fun (b : Iface) => decide (b.id = x)) _ hyx,
          List.find?_cons_of_neg (p := fun (b : Iface) => decide (b.id = x)) _ hyx, ih]

theorem Store.findIface?_setIface_other (s : Store) (a : Iface) (x : Nat)
    (hx : ¬ (x = a.id)) : (s.setIface a).findIface? x = s.findIface? x := by
  unfold Store.setIface Store.findIface?
  exact find?_map_setIface s.ifaces a x hx

theorem find?_map_setIface_self (l : List Iface) (a : Iface)
    (h : (l.find? (fun b => b.id = a.id)).isSome) :
    (l.map (fun b => if b.id = a.id then a else b)).find? (fun b => b.id = a.id)
      = some a := by
  induction l with
  | nil => simp at h
  | cons y ys ih =>
    by_cases hy : y.id = a.id
    · simp [List.find?, hy]
    · simp only [List.map_cons, List.find?, if_neg hy]
      simp only [List.find?] at h
      rw [decide_eq_false hy] at h ⊢
      exact ih h

theorem Store.findIface?_setIface_self (s : Store) (a : Iface)
    (h : (s.findIface? a.id).isSome) :
    (s.setIface a).findIface? a.id = some a := by
  unfold Store.setIface Store.findIface?
  exact find?_map_setIface_self s.ifaces a h

theorem Store.links_setIface (s : Store) (a : Iface) :
    (s.setIface a).links = s.links := rfl

theorem Store.links_addWrite (s : Store) (e : WEvent) :
    (s.addWrite e).links = s.links := rfl

theorem Store.ifaces_addWrite (s : Store) (e : WEvent) :
    (s.addWrite e).ifaces = s.ifaces := rfl

theorem Store.ifaces_setIp (s : Store) (r : IpR) :
    (s.setIp r).ifaces = s.ifaces := rfl

theorem Store.ifaces_setSubnet (s : Store) (r : SubnetR) :
    (s.setSubnet r).ifaces = s.ifaces := rfl

theorem Store.ifaces_addLink (s : Store) (i ip : Nat) :
    (s.addLink i ip).ifaces = s.ifaces := by
  unfold Store.addLink; split <;> rfl

theorem Store.ifaces_removeLink (s : Store) (i ip : Nat) :
    (s.removeLink i ip).ifaces = s.ifaces := by
  unfold Store.removeLink; split <;> rfl

theorem Store.ifaces_addLog (s : Store) (e : LogE) :
    (s.addLog e).ifaces = s.ifaces := rfl

/-! ## C8: multicast scheduler coalescing -/

/-- Whether any request in the batch asked for a solicitation. -/
def anySolicitation (reqs : List (Nat × Bool)) : Bool :=
  reqs.any (fun r => r.2)

theorem schedGo_window (c : Nat) (wsol : Bool) (reqs : List (Nat × Bool))
    (h : ∀ r ∈ reqs, r.1 < c) :
    schedGo (some (c, wsol)) reqs = [(c, wsol || anySolicitation reqs)] := by
  induction reqs generalizing wsol with
  | nil => simp [schedGo, anySolicitation]
  | cons r rest ih =>
    obtain ⟨t, sol⟩ := r
    have ht : t < c := h (t, sol) (by simp)
    simp only [schedGo, if_pos ht]
    rw [ih (wsol || sol) (fun x hx => h x (List.mem_cons_of_mem _ hx))]
    simp [anySolicitation, Bool.or_assoc]

/-- C8: for every sequence of N >= 1 multicast beaconing requests arriving
within one open scheduler window, exactly one multicast burst is emitted for
that window, and the kind transmitted is solicitation if any request in the
window asked for solicitation, otherwise advertisement (`true` encodes
solicitation). -/
theorem c8_scheduler_coalescing (t0 : Nat) (sol0 : Bool) (rest : List (Nat × Bool))
    (hwin : ∀ r ∈ rest, r.1 < t0 + schedulerWindow) :
    multicastSchedule ((t0, sol0) :: rest)
      = [(t0 + schedulerWindow, sol0 || anySolicitation rest)] := by
  unfold multicastSchedule
  simp only [schedGo]
  exact schedGo_window _ _ _ hwin

theorem c8_scheduler_coalescing_witness :
    multicastSchedule [(6, false), (8, true), (10, false)] = [(11, true)] :=
  c8_scheduler_coalescing 6 false [(8, true), (10, false)] (by decide)

/-- C9: a beacon recorded in the tx-table as sent from a local interface and
received back with the same uuid yields, on the transmitting interface,
exactly one hint of kind `rx_own_beacon_on_tx_interface`; on a different
local interface with neither side vlan-tagged, exactly one hint of kind
`rx_own_beacon_on_other_interface` and no hint of any other kind. -/
theorem c9_own_beacon_hints (txQueue : List (String × (String × Option Nat)))
    (uuid txIfname : String) (txVid : Option Nat) (rxIfname : String)
    (rxVid : Option Nat)
    (hfind : txQueue.find? (fun p => p.1 = uuid) = some (uuid, (txIfname, txVid))) :
    (rxIfname = txIfname →
      beaconReceivedOwn txQueue uuid rxIfname rxVid
        = [⟨some rxIfname, rxVid, "rx_own_beacon_on_tx_interface",
            some txIfname, txVid, none⟩])
    ∧ (¬ (rxIfname = txIfname) → txVid = none → rxVid = none →
      beaconReceivedOwn txQueue uuid rxIfname rxVid
        = [⟨some rxIfname, none, "rx_own_beacon_on_other_interface",
            some txIfname, none, none⟩]) := by
  unfold beaconReceivedOwn
  rw [hfind]
  constructor
  · intro h
    simp [hintsForOwnBeacon, h]
  · intro h h1 h2
    simp [hintsForOwnBeacon, h, h1, h2]

theorem c9_own_beacon_hints_witness :
    (("eth1" : String) = "eth0" →
      beaconReceivedOwn [("u1", ("eth0", none))] "u1" "eth1" none
        = [⟨some "eth1", none, "rx_own_beacon_on_tx_interface",
            some "eth0", none, none⟩])
    ∧ (¬ (("eth1" : String) = "eth0") → (none : Option Nat) = none →
        (none : Option Nat) = none →
      beaconReceivedOwn [("u1", ("eth0", none))] "u1" "eth1" none
        = [⟨some "eth1", none, "rx_own_beacon_on_other_interface",
            some "eth0", none, none⟩]) :=
  c9_own_beacon_hints [("u1", ("eth0", none))] "u1" "eth0" none "eth1" none
    (by rfl)

/-! ## C7: VLAN inference from addresses and propagation to parents -/

/-- Whether the store's record for address id `x` has alloc type `a`. -/
def ipAllocTypeIs (s : Store) (a : AllocType) (x : Nat) : Bool :=
  match s.findIp? x with
  | some r => r.allocType = a
  | none => false

/-- The VLAN of the subnet of the address row with id `x`. -/
def vlanOfIpId (s : Store) (x : Nat) : Option Nat :=
  (s.findIp? x).bind (fun r => subnetVlanOf s r)

/-- The last element of a list. -/
def lastElem {α : Type} : List α → Option α
  | [] => none
  | [x] => some x
  | _ :: y :: rest => lastElem (y :: rest)

/-- The claim's selection rule with an explicit default: the VLAN of the
first STICKY address in the candidate list, else the VLAN of the last
DISCOVERED address, else the default. -/
def guessBestSpecD (s : Store) (ids : List Nat) (second : Option Nat) :
    Option Nat :=
  match (ids.filter (ipAllocTypeIs s AllocType.sticky)).head? with
  | some x => vlanOfIpId s x
  | none =>
    match lastElem (ids.filter (ipAllocTypeIs s AllocType.discovered)) with
    | some x => vlanOfIpId s x
    | none => second

/-- The claim's selection rule: first STICKY wins, else last DISCOVERED,
else none. -/
def guessBestSpec (s : Store) (ids : List Nat) : Option Nat :=
  guessBestSpecD s ids none

theorem lastElem_cons {α : Type} (x y : α) (rest : List α) :
    lastElem (x :: y :: rest) = lastElem (y :: rest) := rfl

theorem lastElem_isSome {α : Type} (y : α) (rest : List α) :
    (lastElem (y :: rest)).isSome := by
  induction rest generalizing y with
  | nil => rfl
  | cons z zs ih => rw [lastElem_cons]; exact ih z

theorem guessBestGo_eq_spec (s : Store) (ids : List Nat) :
    ∀ second, guessBestGo s ids second = guessBestSpecD s ids second := by
  induction ids with
  | nil => intro second; rfl
  | cons x rest ih =>
    intro second
    cases hfind : s.findIp? x with
    | none =>
      have hs : ipAllocTypeIs s AllocType.sticky x = false := by
        simp [ipAllocTypeIs, hfind]
      have hd : ipAllocTypeIs s AllocType.discovered x = false := by
        simp [ipAllocTypeIs, hfind]
      simp only [guessBestGo, hfind, guessBestSpecD, List.filter_cons, hs, hd,
        if_false, Bool.false_eq_true]
      exact ih second
    | some r =>
      cases halloc : r.allocType with
      | sticky =>
        have hs : ipAllocTypeIs s AllocType.sticky x = true := by
          simp [ipAllocTypeIs, hfind, halloc]
        have hv : vlanOfIpId s x = subnetVlanOf s r := by
          simp [vlanOfIpId, hfind]
        simp [guessBestGo, hfind, halloc, guessBestSpecD, List.filter_cons, hs, hv]
      | dhcp =>
        have hs : ipAllocTypeIs s AllocType.sticky x = false := by
          simp [ipAllocTypeIs, hfind, halloc]
        have hd : ipAllocTypeIs s AllocType.discovered x = false := by
          simp [ipAllocTypeIs, hfind, halloc]
        simp only [guessBestGo, hfind, halloc, guessBestSpecD, List.filter_cons,
          hs, hd, if_false, Bool.false_eq_true, reduceCtorEq, if_true]
        exact ih second
      | discovered =>
        have hs : ipAllocTypeIs s AllocType.sticky x = false := by
          simp [ipAllocTypeIs, hfind, halloc]
        have hd : ipAllocTypeIs s AllocType.discovered x = true := by
          simp [ipAllocTypeIs, hfind, halloc]
        have hv : vlanOfIpId s x = subnetVlanOf s r := by
          simp [vlanOfIpId, hfind]
        simp only [guessBestGo, hfind, halloc, guessBestSpecD, List.filter_cons,
          hs, hd, if_true, if_false, Bool.false_eq_true]
        rw [ih (subnetVlanOf s r)]
        simp only [guessBestSpecD]
        cases hfl : (rest.filter (ipAllocTypeIs s AllocType.sticky)).head? with
        | some y => simp
        | none =>
          simp only
          cases hdl : rest.filter (ipAllocTypeIs s AllocType.discovered) with
          | nil => simp [lastElem, hv]
          | cons z zs =>
            rw [lastElem_cons]
            cases hle : lastElem (z :: zs) with
            | none =>
              exact absurd (hle ▸ lastElem_isSome z zs) (by simp)
            | some w => simp

theorem map_setIface_of_not_mem (l : List Iface) (a : Iface)
    (h : ∀ b ∈ l, ¬ (b.id = a.id)) :
    l.map (fun b => if b.id = a.id then a else b) = l := by
  induction l with
  | nil => rfl
  | cons y ys ih =>
    simp only [List.map_cons, if_neg (h y (by simp))]
    rw [ih (fun b hb => h b (List.mem_cons_of_mem _ hb))]

theorem Store.findIface?_setIface_isSome (s : Store) (a : Iface) (x : Nat) :
    ((s.setIface a).findIface? x).isSome = (s.findIface? x).isSome := by
  by_cases hx : x = a.id
  · subst hx
    cases h : s.findIface? a.id with
    | some r =>
      rw [Store.findIface?_setIface_self s a (by rw [h]; rfl)]
      rfl
    | none =>
      have h2 : (s.setIface a).findIface? a.id = none := by
        unfold Store.setIface Store.findIface?
        simp only
        rw [map_setIface_of_not_mem s.ifaces a
          (fun b hb => by simpa using List.find?_eq_none.mp h b hb)]
        exact h
      rw [h2]
  · rw [Store.findIface?_setIface_other s a x hx]

theorem ifaceVlanId_addWrite (s : Store) (e : WEvent) (x : Nat) :
    ifaceVlanId (s.addWrite e) x = ifaceVlanId s x := rfl

theorem ifaceVlanId_setIface_other (s : Store) (a : Iface) (x : Nat)
    (hx : ¬ (x = a.id)) : ifaceVlanId (s.setIface a) x = ifaceVlanId s x := by
  unfold ifaceVlanId
  rw [Store.findIface?_setIface_other s a x hx]

theorem parent_fold_sets (lv : Nat) (ps : List Iface) (t : Store)
    (hex : ∀ p ∈ ps, (t.findIface? p.id).isSome) :
    (∀ p ∈ ps, ifaceVlanId (ps.foldl (parentVlanStep lv) t) p.id = some lv)
    ∧ (∀ x, ((ps.foldl (parentVlanStep lv) t).findIface? x).isSome
        = (t.findIface? x).isSome)
    ∧ (∀ x, ifaceVlanId t x = some lv →
        ifaceVlanId (ps.foldl (parentVlanStep lv) t) x = some lv) := by
  induction ps generalizing t with
  | nil => exact ⟨fun p hp => absurd hp (by simp), fun x => rfl, fun x h => h⟩
  | cons p rest ih =>
    have hps : (t.findIface? p.id).isSome := hex p (by simp)
    have key : (∀ x, ((parentVlanStep lv t p).findIface? x).isSome
          = (t.findIface? x).isSome)
        ∧ ifaceVlanId (parentVlanStep lv t p) p.id = some lv
        ∧ (∀ x, ifaceVlanId t x = some lv →
            ifaceVlanId (parentVlanStep lv t p) x = some lv) := by
      unfold parentVlanStep
      cases hf : t.findIface? p.id with
      | none => rw [hf] at hps; simp at hps
      | some pr =>
        dsimp only
        have hpr : pr.id = p.id := by
          have h2 := List.find?_some hf
          simpa using h2
        by_cases hv : pr.vlan = some lv
        · rw [if_neg (not_not_intro hv)]
          exact ⟨fun x => rfl, by simp [ifaceVlanId, hf, hv], fun x h => h⟩
        · simp only [if_pos hv]
          have hid2 : (Iface.mk pr.id pr.node pr.name pr.mac pr.itype
              (some lv) pr.enabled pr.parents pr.acquired).id = pr.id := rfl
          refine ⟨?_, ?_, ?_⟩
          · intro x
            rw [show ((t.setIface { pr with vlan := some lv }).addWrite
                (.updateRow "interface" pr.id)).findIface? x
                = (t.setIface { pr with vlan := some lv }).findIface? x from rfl]
            exact Store.findIface?_setIface_isSome t _ x
          · have hsome : (t.findIface? ({ pr with vlan := some lv } : Iface).id).isSome := by
              show (t.findIface? pr.id).isSome
              rw [hpr]; exact hps
            unfold ifaceVlanId
            rw [show ((t.setIface { pr with vlan := some lv }).addWrite
                (.updateRow "interface" pr.id)).findIface? p.id
                = (t.setIface { pr with vlan := some lv }).findIface? p.id from rfl]
            rw [show p.id = ({ pr with vlan := some lv } : Iface).id from (hpr ▸ rfl)]
            rw [Store.findIface?_setIface_self t _ hsome]
            rfl
          · intro x hx
            by_cases hxp : x = p.id
            · subst hxp
              unfold ifaceVlanId at hx
              rw [hf] at hx
              exact absurd hx (by simpa using hv)
            · rw [ifaceVlanId_addWrite, ifaceVlanId_setIface_other]
              · exact hx
              · show ¬ (x = pr.id)
                rw [hpr]; exact hxp
    have hex2 : ∀ q ∈ rest, ((parentVlanStep lv t p).findIface? q.id).isSome := by
      intro q hq
      rw [key.1 q.id]
      exact hex q (List.mem_cons_of_mem _ hq)
    obtain ⟨ih1, ih2, ih3⟩ := ih (parentVlanStep lv t p) hex2
    refine ⟨?_, ?_, ?_⟩
    · intro q hq
      rcases List.mem_cons.mp hq with h | h
      · subst h
        simp only [List.foldl_cons]
        exact ih3 q.id key.2.1
      · simp only [List.foldl_cons]
        exact ih1 q h
    · intro x
      simp only [List.foldl_cons]
      rw [ih2 x, key.1 x]
    · intro x hx
      simp only [List.foldl_cons]
      exact ih3 x (key.2.2 x hx)

/-- C7: for every bond or bridge interface, after link reconciliation, the
VLAN inferable from the child's updated IP addresses is the VLAN of the
first STICKY address in the candidate list, else the VLAN of the last
DISCOVERED address, else none; when inferable it is assigned to the child
and to every parent interface (overwriting any different VLAN previously
set on a parent), and when not inferable the store is left unchanged. -/
theorem c7_vlan_propagation (s : Store) (node i : Nat)
    (parentNics : List Iface) (ids : List Nat)
    (hchild : (s.findIface? i).isSome)
    (hpar : ∀ p ∈ parentNics, (s.findIface? p.id).isSome) :
    (guess_best_vlan_from_ip_addresses s ids = guessBestSpec s ids)
    ∧ (∀ lv, guess_best_vlan_from_ip_addresses s ids = some lv →
        ifaceVlanId (update_parent_vlans node i parentNics ids s) i = some lv
        ∧ ∀ p ∈ parentNics,
            ifaceVlanId (update_parent_vlans node i parentNics ids s) p.id
              = some lv)
    ∧ (guess_best_vlan_from_ip_addresses s ids = none →
        update_parent_vlans node i parentNics ids s = s) := by
  refine ⟨guessBestGo_eq_spec s ids none, ?_, ?_⟩
  · intro lv hlv
    unfold update_parent_vlans
    rw [hlv]
    cases hci : s.findIface? i with
    | none => rw [hci] at hchild; simp at hchild
    | some a =>
      dsimp only
      have hai : a.id = i := by simpa using List.find?_some hci
      have hsome : (s.findIface? ({ a with vlan := some lv } : Iface).id).isSome := by
        show (s.findIface? a.id).isSome
        rw [hai]; exact hchild
      have hvl1 : ifaceVlanId ((s.setIface { a with vlan := some lv }).addWrite
          (.updateRow "interface" i)) i = some lv := by
        unfold ifaceVlanId
        rw [show ((s.setIface { a with vlan := some lv }).addWrite
            (.updateRow "interface" i)).findIface? i
            = (s.setIface { a with vlan := some lv }).findIface? i from rfl]
        rw [show i = ({ a with vlan := some lv } : Iface).id from (hai ▸ rfl)]
        rw [Store.findIface?_setIface_self s _ hsome]
        rfl
      have hex1 : ∀ p ∈ parentNics,
          (((s.setIface { a with vlan := some lv }).addWrite
            (.updateRow "interface" i)).findIface? p.id).isSome := by
        intro p hp
        rw [show ((s.setIface { a with vlan := some lv }).addWrite
            (.updateRow "interface" i)).findIface? p.id
            = (s.setIface { a with vlan := some lv }).findIface? p.id from rfl]
        rw [Store.findIface?_setIface_isSome]
        exact hpar p hp
      obtain ⟨hp1, _, hp3⟩ := parent_fold_sets lv parentNics _ hex1
      exact ⟨hp3 i hvl1, hp1⟩
  · intro hnone
    unfold update_parent_vlans
    rw [hnone]

/-- A concrete store for exercising VLAN propagation: bridge 10 with
parents 11 and 12, a STICKY address 5 on subnet 3 which sits on VLAN 7. -/
def c7Store : Store :=
  { ifaces := [⟨10, 1, "br0", "m0", "bridge", none, true, [11, 12], true⟩,
               ⟨11, 1, "eth0", "m1", "physical", some 99, true, [], true⟩,
               ⟨12, 1, "eth1", "m2", "physical", none, true, [], true⟩],
    vlans := [⟨7, 0, 5⟩, ⟨99, 0, 9⟩], fabrics := [⟨0, 7⟩],
    subnets := [⟨3, "10.0.5.0/24", "10.0.5.0/24", 7, none⟩],
    ips := [⟨5, AllocType.sticky, some "10.0.5.2", some 3⟩],
    links := [(10, 5)], boots := [], defaultVlan := 7, nextId := 100,
    writes := [], logs := [] }

def c7Parents : List Iface :=
  [⟨11, 1, "eth0", "m1", "physical", some 99, true, [], true⟩,
   ⟨12, 1, "eth1", "m2", "physical", none, true, [], true⟩]

theorem c7_vlan_propagation_witness :
    (guess_best_vlan_from_ip_addresses c7Store [5] = guessBestSpec c7Store [5])
    ∧ (∀ lv, guess_best_vlan_from_ip_addresses c7Store [5] = some lv →
        ifaceVlanId (update_parent_vlans 1 10 c7Parents [5] c7Store) 10 = some lv
        ∧ ∀ p ∈ c7Parents,
            ifaceVlanId (update_parent_vlans 1 10 c7Parents [5] c7Store) p.id
              = some lv)
    ∧ (guess_best_vlan_from_ip_addresses c7Store [5] = none →
        update_parent_vlans 1 10 c7Parents [5] c7Store = c7Store) :=
  c7_vlan_propagation c7Store 1 10 c7Parents [5] (by decide) (by decide)

/-! ## C10: hint gating and hint resolution -/

/-- Equality of interface rows on everything except `parents` (queryset
deletion rewrites surviving rows' parent lists only). -/
def sameCore (b b0 : Iface) : Prop :=
  b.id = b0.id ∧ b.node = b0.node ∧ b.name = b0.name ∧ b.mac = b0.mac
    ∧ b.itype = b0.itype ∧ b.vlan = b0.vlan ∧ b.enabled = b0.enabled

theorem sameCore_parents_filter (b0 : Iface) (q : Nat → Bool) :
    sameCore { b0 with parents := b0.parents.filter q } b0 :=
  ⟨rfl, rfl, rfl, rfl, rfl, rfl, rfl⟩

theorem deleteIface_mem (s : Store) (j : Nat) (b : Iface)
    (hb : b ∈ (s.deleteIface j).ifaces) :
    ∃ b0 ∈ s.ifaces, sameCore b b0 := by
  unfold Store.deleteIface at hb
  by_cases hg : (s.ifaces.find? (fun a => a.id = j)).isSome
  · rw [if_pos hg] at hb
    simp only [List.mem_map, List.mem_filter] at hb
    obtain ⟨b0, ⟨hb0, _⟩, hbeq⟩ := hb
    exact ⟨b0, hb0, hbeq ▸ sameCore_parents_filter b0 _⟩
  · rw [if_neg hg] at hb
    exact ⟨b, hb, ⟨rfl, rfl, rfl, rfl, rfl, rfl, rfl⟩⟩

theorem deleteIface_surv (s : Store) (j : Nat) (b0 : Iface)
    (hb0 : b0 ∈ s.ifaces) (hid : ¬ (b0.id = j)) :
    ∃ b ∈ (s.deleteIface j).ifaces, sameCore b b0 := by
  unfold Store.deleteIface
  by_cases hg : (s.ifaces.find? (fun a => a.id = j)).isSome
  · rw [if_pos hg]
    refine ⟨{ b0 with parents := b0.parents.filter (fun p => ¬ (p = j)) }, ?_,
      sameCore_parents_filter b0 _⟩
    simp only [List.mem_map, List.mem_filter]
    exact ⟨b0, ⟨hb0, by simpa using hid⟩, rfl⟩
  · rw [if_neg hg]
    exact ⟨b0, hb0, ⟨rfl, rfl, rfl, rfl, rfl, rfl, rfl⟩⟩

theorem sameCore_trans (a b c : Iface) (h1 : sameCore a b) (h2 : sameCore b c) :
    sameCore a c := by
  obtain ⟨x1, x2, x3, x4, x5, x6, x7⟩ := h1
  obtain ⟨y1, y2, y3, y4, y5, y6, y7⟩ := h2
  exact ⟨x1.trans y1, x2.trans y2, x3.trans y3, x4.trans y4, x5.trans y5,
    x6.trans y6, x7.trans y7⟩

theorem deleteIfaces_mem (s : Store) (ids : List Nat) (b : Iface)
    (hb : b ∈ (s.deleteIfaces ids).ifaces) :
    ∃ b0 ∈ s.ifaces, sameCore b b0 := by
  induction ids generalizing s with
  | nil => exact ⟨b, hb, ⟨rfl, rfl, rfl, rfl, rfl, rfl, rfl⟩⟩
  | cons j rest ih =>
    have hb2 := ih (s.deleteIface j) hb
    obtain ⟨b1, hb1, hcore⟩ := hb2
    obtain ⟨b0, hb0, hcore0⟩ := deleteIface_mem s j b1 hb1
    exact ⟨b0, hb0, sameCore_trans b b1 b0 hcore hcore0⟩

theorem deleteIfaces_surv (s : Store) (ids : List Nat) (b0 : Iface)
    (hb0 : b0 ∈ s.ifaces) (hid : ∀ j ∈ ids, ¬ (b0.id = j)) :
    ∃ b ∈ (s.deleteIfaces ids).ifaces, sameCore b b0 := by
  induction ids generalizing s b0 with
  | nil => exact ⟨b0, hb0, ⟨rfl, rfl, rfl, rfl, rfl, rfl, rfl⟩⟩
  | cons j rest ih =>
    obtain ⟨b1, hb1, hcore1⟩ := deleteIface_surv s j b0 hb0 (hid j (by simp))
    have hid1 : ∀ k ∈ rest, ¬ (b1.id = k) := by
      intro k hk
      rw [hcore1.1]
      exact hid k (List.mem_cons_of_mem _ hk)
    obtain ⟨b, hb, hcore⟩ := ih (s.deleteIface j) b1 hb1 hid1
    exact ⟨b, hb, sameCore_trans b b1 b0 hcore hcore1⟩

theorem resolveHintRelated_of_not_reassigns (s : Store) (node : Nat) (h : HintR)
    (hra : ¬ (hintReassigns h = true)) :
    resolveHintRelated s node h = none := by
  by_cases h1 : ((h.hint = some "on_remote_network" ∨ h.hint = some "routable_to")
      ∧ ¬ (h.relatedMac = none))
  · exact absurd (by simp [hintReassigns, h1]) hra
  · by_cases h2 : (h.hint = some "rx_own_beacon_on_other_interface"
        ∨ h.hint = some "same_local_fabric_as")
    · exact absurd (by simp [hintReassigns, h2]) hra
    · unfold resolveHintRelated
      rw [if_neg h1, if_neg h2]

theorem guessVlanFromHintsGo_eq_spec (s : Store) (node : Nat) :
    ∀ (hs : List HintR) (rel : Option Iface),
      (∀ a, rel = some a → a.vlan = none) →
      guessVlanFromHintsGo s node hs rel
        = hs.findSome? (fun h => (resolveHintRelated s node h).bind
            (fun a => a.vlan)) := by
  intro hs
  induction hs with
  | nil => intro rel hrel; rfl
  | cons h rest ih =>
    intro rel hrel
    rw [List.findSome?_cons]
    by_cases hra : hintReassigns h = true
    · simp only [guessVlanFromHintsGo, hra, if_pos]
      cases hres : resolveHintRelated s node h with
      | some a =>
        cases hav : a.vlan with
        | some v => simp [hres, hav]
        | none =>
          simp only [hres, Option.some_bind, hav]
          rw [ih (some a) (fun b hb => by cases hb; exact hav)]
      | none =>
        simp only [hres, Option.none_bind]
        rw [ih none (fun b hb => by cases hb)]
    · have hres := resolveHintRelated_of_not_reassigns s node h hra
      simp only [guessVlanFromHintsGo, if_neg hra, hres, Option.none_bind]
      cases hrelv : rel with
      | none =>
        rw [ih none (fun b hb => by cases hb)]
      | some a =>
        have hav : a.vlan = none := hrel a hrelv
        simp only [hav]
        rw [ih (some a) (fun b hb => by cases hb; exact hav)]

theorem guess_vlan_from_hints_eq_spec (s : Store) (node : Nat) (ifname : String)
    (hints : List HintR) :
    guess_vlan_from_hints s node ifname hints
      = guessVlanFromHintsSpec s node ifname hints := by
  unfold guess_vlan_from_hints guessVlanFromHintsSpec
  exact guessVlanFromHintsGo_eq_spec s node _ none (fun a ha => by cases ha)

/-- C10: hint-derived VLAN assignment never overwrites an existing VLAN on a
physical interface: when `create_fabrics` is false, or the interface is not
administratively enabled, or the matched interface already has a VLAN, the
hint batch plays no role at all (the run equals the run with no hints); and
`guess_vlan_from_hints` considers only hints whose ifname equals the
interface's name with `vid` and `related_vid` both absent, returning the
VLAN of the first matching related interface that has one. -/
theorem c10_hint_gating (s : Store) (node : Nat) (name : String) (cfg : IfaceCfg)
    (createFabrics : Bool) (hints : Option (List HintR))
    (hids : (s.ifaces.map (fun a => a.id)).Nodup)
    (hgate : createFabrics = false ∨ cfg.enabled = false
      ∨ ((∃ b ∈ s.ifaces, b.itype = "physical" ∧ b.mac = cfg.mac)
          ∧ ∀ b ∈ s.ifaces, b.itype = "physical" → b.mac = cfg.mac →
              b.vlan.isSome)) :
    update_physical_interface node name cfg createFabrics hints s
      = update_physical_interface node name cfg createFabrics none s
    ∧ ∀ ifname hs, guess_vlan_from_hints s node ifname hs
        = guessVlanFromHintsSpec s node ifname hs := by
  refine ⟨?_, fun ifname hs => guess_vlan_from_hints_eq_spec s node ifname hs⟩
  rcases hgate with hcf | hen | ⟨⟨b0, hb0, hb0t, hb0m⟩, hall⟩
  · simp [update_physical_interface, hcf]
  · simp [update_physical_interface, hen]
  · have hnotdoomed : ∀ j ∈ ((s.ifaces.filter (fun a => a.itype = "physical"
        ∧ a.node = node ∧ a.name = name ∧ ¬ (a.mac = cfg.mac))).map
        (fun a => a.id)), ¬ (b0.id = j) := by
      intro j hj hbj
      simp only [List.mem_map, List.mem_filter] at hj
      obtain ⟨d, hd, hdj⟩ := hj
      have hdecide := hd.2
      simp only [Bool.and_eq_true, decide_eq_true_eq] at hdecide
      have : b0 = d := List.inj_on_of_nodup_map hids hb0 hd.1 (by rw [hbj, hdj])
      rw [this] at hb0m
      exact hdecide.2.2.2 (by simpa using hb0m)
    obtain ⟨b1, hb1, hc1⟩ := deleteIfaces_surv s _ b0 hb0 hnotdoomed
    have hfs : (((s.deleteIfaces ((s.ifaces.filter (fun a => a.itype = "physical"
        ∧ a.node = node ∧ a.name = name ∧ ¬ (a.mac = cfg.mac))).map
        (fun a => a.id))).ifaces).find? (fun a => a.itype = "physical"
        ∧ a.mac = cfg.mac)).isSome := by
      apply List.find?_isSome.mpr
      refine ⟨b1, hb1, ?_⟩
      simp only [Bool.and_eq_true, decide_eq_true_eq]
      exact ⟨hc1.2.2.2.2.1 ▸ hb0t, hc1.2.2.2.1 ▸ hb0m⟩
    obtain ⟨a, hfind⟩ := Option.isSome_iff_exists.mp hfs
    have hamem := List.mem_of_find?_eq_some hfind
    obtain ⟨a0, ha0, hca⟩ := deleteIfaces_mem s _ a hamem
    have hpred := List.find?_some hfind
    simp only [Bool.and_eq_true, decide_eq_true_eq] at hpred
    have havs : a.vlan.isSome := by
      rw [hca.2.2.2.2.2.1]
      exact hall a0 ha0 (hca.2.2.2.2.1 ▸ hpred.1) (hca.2.2.2.1 ▸ hpred.2)
    have hvne : ¬ (a.vlan = none) := by
      cases hv : a.vlan with
      | none => rw [hv] at havs; simp at havs
      | some v => simp
    simp only [update_physical_interface, hfind]
    simp [hvne]

def c10Cfg : IfaceCfg :=
  { itype := "physical", parents := [], mac := "m1", enabled := true,
    links := [], vid := 0 }

theorem c10_hint_gating_witness :
    (update_physical_interface 1 "eth0" c10Cfg true
        (some [⟨some "eth0", none, some "same_local_fabric_as", some "eth1",
          none, none⟩]) c7Store
      = update_physical_interface 1 "eth0" c10Cfg true none c7Store)
    ∧ ∀ ifname hs, guess_vlan_from_hints c7Store 1 ifname hs
        = guessVlanFromHintsSpec c7Store 1 ifname hs :=
  c10_hint_gating c7Store 1 "eth0" c10Cfg true
    (some [⟨some "eth0", none, some "same_local_fabric_as", some "eth1",
      none, none⟩])
    (by decide) (by decide)

/-! ## Ordering lemmas (insertion sort and sorttop) -/

theorem mem_insort {α : Type} [LinearOrder α] (x y : α) (l : List α) :
    y ∈ insort x l ↔ y = x ∨ y ∈ l := by
  induction l with
  | nil => simp [insort]
  | cons z zs ih =>
    unfold insort
    by_cases h : x ≤ z
    · rw [if_pos h]; simp [List.mem_cons]
    · rw [if_neg h]
      simp only [List.mem_cons, ih]
      tauto

theorem mem_sortList {α : Type} [LinearOrder α] (y : α) (l : List α) :
    y ∈ sortList l ↔ y ∈ l := by
  induction l with
  | nil => simp [sortList]
  | cons z zs ih =>
    unfold sortList
    rw [mem_insort]
    simp [List.mem_cons, ih]

theorem insort_perm {α : Type} [LinearOrder α] (x : α) (l : List α) :
    List.Perm (insort x l) (x :: l) := by
  induction l with
  | nil => simp [insort]
  | cons z zs ih =>
    unfold insort
    by_cases h : x ≤ z
    · rw [if_pos h]
    · rw [if_neg h]
      exact (List.Perm.cons z ih).trans (List.Perm.swap x z zs)

theorem sortList_perm {α : Type} [LinearOrder α] (l : List α) :
    List.Perm (sortList l) l := by
  induction l with
  | nil => simp [sortList]
  | cons z zs ih =>
    unfold sortList
    exact (insort_perm z (sortList zs)).trans (List.Perm.cons z ih)


theorem sorttopGo_complete {α : Type} [DecidableEq α] (fuel : Nat) :
    ∀ (pending : List (α × List α)) (layers : List (List α)),
      sorttopGo fuel pending = .ok layers →
      ∀ k ∈ pending.map (fun q => q.1), ∃ layer ∈ layers, k ∈ layer := by
  induction fuel with
  | zero =>
    intro pending layers hok k hk
    cases pending with
    | nil => simp at hk
    | cons p ps => exact absurd hok (by simp [sorttopGo])
  | succ n ih =>
    intro pending layers hok k hk
    cases pending with
    | nil => simp at hk
    | cons p ps =>
      simp only [sorttopGo] at hok
      split at hok
      · cases hok
      · split at hok
        · rename_i rest hrec
          cases hok
          by_cases hkr : k ∈ (((p :: ps).filter
              (fun q => q.2.all (fun d =>
                ¬ ((p :: ps).map (fun q => q.1)).contains d))).map
                  (fun r => r.1))
          · exact ⟨_, by simp, hkr⟩
          · simp only [List.mem_map] at hk
            obtain ⟨q, hq, hqk⟩ := hk
            have hqmem : q ∈ (p :: ps).filter
                (fun q => ¬ ((((p :: ps).filter
                  (fun q => q.2.all (fun d =>
                    ¬ ((p :: ps).map (fun q => q.1)).contains d))).map
                      (fun r => r.1)).contains q.1)) := by
              rw [List.mem_filter]
              refine ⟨hq, ?_⟩
              simp only [decide_eq_true_eq, List.elem_iff]
              rw [hqk]
              simpa using hkr
            have := ih _ rest hrec k
              (List.mem_map.mpr ⟨q, hqmem, hqk⟩)
            obtain ⟨layer, hl, hkl⟩ := this
            exact ⟨layer, List.mem_cons_of_mem _ hl, hkl⟩
        · cases hok

theorem processOrderNames_complete (interfaces : List (String × IfaceCfg))
    (order : List String) (hok : processOrderNames interfaces = .ok order)
    (n0 : String) (hmem : n0 ∈ interfaces.map (fun p => p.1)) :
    n0 ∈ order := by
  unfold processOrderNames at hok
  cases hst : sorttop (interfaces.map (fun p => (p.1, p.2.parents))) with
  | error e => rw [hst] at hok; cases hok
  | ok layers =>
    rw [hst] at hok
    cases hok
    have hkeys : n0 ∈ (interfaces.map (fun p => (p.1, p.2.parents))).map
        (fun q => q.1) := by
      simpa [List.map_map, Function.comp] using hmem
    obtain ⟨layer, hl, hkl⟩ := sorttopGo_complete _ _ _ hst n0 hkeys
    rw [List.mem_flatten]
    exact ⟨sortList layer, List.mem_map.mpr ⟨layer, hl, rfl⟩,
      (mem_sortList _ _).mpr hkl⟩

theorem processNames_error (node : Nat) (interfaces : List (String × IfaceCfg))
    (hints : Option (List HintR)) (cf : Bool) (n0 : String) (c0 : IfaceCfg)
    (msg : String)
    (hfind : interfaces.find? (fun p => p.1 = n0) = some (n0, c0))
    (herr : ∀ t : Store, update_interface node n0 c0 cf hints t = .error msg) :
    ∀ (names : List String), n0 ∈ names → ∀ (t : Store) (current : List Nat),
      ∃ e, processNames node interfaces hints cf names t current = .error e := by
  intro names
  induction names with
  | nil => intro h; simp at h
  | cons n rest ih =>
    intro hmem t current
    by_cases hn : n = n0
    · subst hn
      refine ⟨msg, ?_⟩
      simp only [processNames, hfind]
      rw [herr t]
    · have hmem2 : n0 ∈ rest := by
        rcases List.mem_cons.mp hmem with h | h
        · exact absurd h.symm hn
        · exact h
      simp only [processNames]
      cases hf2 : interfaces.find? (fun p => p.1 = n) with
      | none =>
        dsimp only
        exact ih hmem2 t current
      | some p =>
        dsimp only
        cases hui : update_interface node n p.2 cf hints t with
        | error e => exact ⟨e, rfl⟩
        | ok res =>
          obtain ⟨oi, s2⟩ := res
          cases oi with
          | none =>
            dsimp only
            exact ih hmem2 s2 current
          | some i =>
            dsimp only
            exact ih hmem2 (update_interface_details (update_discovery_state s2))
              (current.filter (fun x => ¬ (x = i)))

theorem update_interface_unknown (node : Nat) (n : String) (c : IfaceCfg)
    (hints : Option (List HintR))
    (h1 : ¬ (c.itype = "physical")) (h2 : ¬ (c.itype = "vlan"))
    (h3 : ¬ (c.itype = "bond")) (h4 : ¬ (c.itype = "bridge")) :
    ∀ t : Store, update_interface node n c true hints t
      = .error ("Unkwown interface type " ++ c.itype ++ " for " ++ n) := by
  intro t
  unfold update_interface
  rw [if_neg h1, if_neg (by simp), if_neg h2, if_neg h3, if_neg h4]

/-- C2 (amended): with `create_fabrics = true`, a desired-state mapping
containing an interface whose type is not one of physical, vlan, bond or
bridge makes `update_node_interfaces` raise, aborting the whole pass (the
`@transactional` wrapper commits nothing on an error result). -/
theorem c2_unknown_type_aborts (node : Nat)
    (interfaces : List (String × IfaceCfg)) (hints : Option (List HintR))
    (s : Store) (n0 : String) (c0 : IfaceCfg)
    (hkeys : (interfaces.map (fun p => p.1)).Nodup)
    (hmem : (n0, c0) ∈ interfaces)
    (h1 : ¬ (c0.itype = "physical")) (h2 : ¬ (c0.itype = "vlan"))
    (h3 : ¬ (c0.itype = "bond")) (h4 : ¬ (c0.itype = "bridge")) :
    ∃ e, update_node_interfaces node interfaces hints true s = .error e := by
  unfold update_node_interfaces
  cases hord : processOrderNames interfaces with
  | error e => exact ⟨e, rfl⟩
  | ok order =>
    have hn0 : n0 ∈ order :=
      processOrderNames_complete interfaces order hord n0
        (List.mem_map.mpr ⟨(n0, c0), hmem, rfl⟩)
    have hfind : interfaces.find? (fun p => p.1 = n0) = some (n0, c0) := by
      apply find?_eq_of_unique interfaces _ (n0, c0) hmem (by simp)
      intro q hq hqk
      simp only [decide_eq_true_eq] at hqk
      exact List.inj_on_of_nodup_map hkeys hq hmem hqk
    obtain ⟨e, he⟩ := processNames_error node interfaces hints true n0 c0 _
      hfind (update_interface_unknown node n0 c0 hints h1 h2 h3 h4)
      order hn0 s
      (sortList ((s.ifaces.filter (fun a => a.node = node)).map (fun a => a.id)))
    refine ⟨e, ?_⟩
    dsimp only
    rw [he]

/-- A minimal well-formed store: the default fabric 0 with its default
VLAN 1 and nothing else. -/
def initialStore : Store :=
  { ifaces := [], vlans := [⟨1, 0, 0⟩], fabrics := [⟨0, 1⟩], subnets := [],
    ips := [], links := [], boots := [], defaultVlan := 1, nextId := 2,
    writes := [], logs := [] }

/-- A desired interface of an unknown type. -/
def c2Cfg : IfaceCfg :=
  { itype := "fancy", parents := [], mac := "0e:01", enabled := true,
    links := [], vid := 0 }

/-- C2 counterexample: with `create_fabrics = false` an unknown-typed,
non-physical interface falls into the `not create_fabrics` deferral branch
of `update_interface` (lines 120-122) and is silently skipped — the pass
succeeds with the store untouched, so the claim's "for any value of
create_fabrics" is false. -/
theorem c2_unknown_type_counterexample :
    update_node_interfaces 1 [("wat0", c2Cfg)] none false initialStore
      = .ok initialStore := by
  rfl

theorem c2_unknown_type_aborts_witness :
    ∃ e, update_node_interfaces 1 [("wat0", c2Cfg)] none true initialStore
      = .error e :=
  c2_unknown_type_aborts 1 [("wat0", c2Cfg)] none initialStore "wat0" c2Cfg
    (by decide) (by decide) (by decide) (by decide) (by decide) (by decide)

/-! ## C6: force_vlan mismatch handling -/

/-- C6 (amended): for a static link processed with `force_vlan` whose
already-existing Subnet sits on a VLAN different from the interface's
current VLAN, the warning is logged and the link is skipped with no partial
application — processing the remaining links continues from the very same
state plus only the log entry.  (For dhcp links the same check fires only
after the DHCP record ensure-exists step has already been applied; see the
counterexample.) -/
theorem c6_static_mismatch_skips (node i : Nat) (vlanVar : Option Nat)
    (link : LinkCfg) (rest : List LinkCfg) (s : Store) (current : List IpR)
    (updated : List Nat) (ipA cidr : String) (sub : SubnetR)
    (hmode : link.mode = "static")
    (haddr : link.address = some (ipA, cidr))
    (hsub : s.subnets.find? (fun x => x.cidr = cidr) = some sub)
    (hmis : ¬ (some sub.vlan = ifaceVlanId s i)) :
    updateLinksGo node i true vlanVar (link :: rest) s current updated
      = updateLinksGo node i true vlanVar rest
          (s.addLog (.vlanMismatch ipA i sub.id)) current updated := by
  have hne : ¬ (link.mode = "dhcp") := by rw [hmode]; decide
  have hbody : staticLinkBody node i true vlanVar ipA cidr link.gateway
      link.gatewayInCidr s current updated
      = (s.addLog (.vlanMismatch ipA i sub.id), current, updated) := by
    unfold staticLinkBody
    rw [hsub]
    dsimp only
    rw [if_pos ⟨rfl, hmis⟩]
  conv_lhs => rw [updateLinksGo]
  rw [if_neg hne, if_pos hmode, haddr]
  dsimp only
  rw [hbody]

/-- A VLAN interface (id 7) on VLAN 3, and a pre-existing subnet 9 sitting
on the different VLAN 4. -/
def c6Store : Store :=
  { ifaces := [⟨7, 1, "vlan0", "m7", "vlan", some 3, true, [], true⟩],
    vlans := [⟨3, 0, 10⟩, ⟨4, 0, 20⟩], fabrics := [⟨0, 3⟩],
    subnets := [⟨9, "10.9.0.0/24", "10.9.0.0/24", 4, none⟩],
    ips := [], links := [], boots := [], defaultVlan := 3, nextId := 50,
    writes := [], logs := [] }

def c6DhcpLink : LinkCfg :=
  { mode := "dhcp", address := some ("10.9.0.5", "10.9.0.0/24"),
    gateway := none, gatewayInCidr := false }

def c6StaticLink : LinkCfg :=
  { mode := "static", address := some ("10.9.0.5", "10.9.0.0/24"),
    gateway := none, gatewayInCidr := false }

/-- C6 counterexample: a dhcp link with a learned address whose subnet
mismatches under `force_vlan` is logged and skipped (the returned updated
set is empty), yet a fresh DHCP address row 50 has already been created and
linked to the interface — a partial application of the link's effects,
refuting "no partial application" for every link. -/
theorem c6_mismatch_counterexample :
    ((update_links 1 7 [c6DhcpLink] true true c6Store).1.logs
        = [.vlanMismatch "10.9.0.5" 7 9])
    ∧ (update_links 1 7 [c6DhcpLink] true true c6Store).1.links = [(7, 50)]
    ∧ (update_links 1 7 [c6DhcpLink] true true c6Store).2 = [] := by
  decide

theorem c6_static_mismatch_skips_witness :
    updateLinksGo 1 7 true (some 3) [c6StaticLink] c6Store [] []
      = updateLinksGo 1 7 true (some 3) []
          (c6Store.addLog (.vlanMismatch "10.9.0.5" 7 9)) [] [] :=
  c6_static_mismatch_skips 1 7 (some 3) c6StaticLink [] c6Store [] []
    "10.9.0.5" "10.9.0.0/24" ⟨9, "10.9.0.0/24", "10.9.0.0/24", 4, none⟩
    (by decide) (by decide) (by decide) (by decide)

/-- `a` occurs strictly before `b` in `l`. -/
def before {α : Type} (l : List α) (a b : α) : Prop :=
  ∃ (i j : Nat), i < j ∧ l[i]? = some a ∧ l[j]? = some b

theorem before_append_of_mem {α : Type} (A B : List α) (a b : α)
    (ha : a ∈ A) (hb : b ∈ B) : before (A ++ B) a b := by
  obtain ⟨i, hi⟩ := List.mem_iff_getElem?.mp ha
  obtain ⟨j, hj⟩ := List.mem_iff_getElem?.mp hb
  have hilen : i < A.length := by
    obtain ⟨h, _⟩ := List.getElem?_eq_some.mp hi
    exact h
  refine ⟨i, A.length + j, by omega, ?_, ?_⟩
  · rw [List.getElem?_append]
    rw [if_pos hilen]
    exact hi
  · rw [List.getElem?_append_right (by omega)]
    simpa using hj

theorem before_append_right {α : Type} (A B : List α) (a b : α)
    (h : before B a b) : before (A ++ B) a b := by
  obtain ⟨i, j, hij, hi, hj⟩ := h
  refine ⟨A.length + i, A.length + j, by omega, ?_, ?_⟩
  · rw [List.getElem?_append_right (by omega)]
    simpa using hi
  · rw [List.getElem?_append_right (by omega)]
    simpa using hj

theorem before_reverse {α : Type} (l : List α) (a b : α)
    (h : before l a b) : before l.reverse b a := by
  obtain ⟨i, j, hij, hi, hj⟩ := h
  have hjlen : j < l.length := by
    obtain ⟨h2, _⟩ := List.getElem?_eq_some.mp hj
    exact h2
  have hilen : i < l.length := by omega
  refine ⟨l.length - 1 - j, l.length - 1 - i, by omega, ?_, ?_⟩
  · rw [List.getElem?_reverse (by omega)]
    rw [show l.length - 1 - (l.length - 1 - j) = j from by omega]
    exact hj
  · rw [List.getElem?_reverse (by omega)]
    rw [show l.length - 1 - (l.length - 1 - i) = i from by omega]
    exact hi

/-- The flattened order: each batch sorted, then concatenated (lines 61
and 100 of `update_node_interfaces`). -/
def flattenSorted {α : Type} [LinearOrder α] (layers : List (List α)) : List α :=
  (layers.map sortList).flatten

theorem mem_flattenSorted {α : Type} [LinearOrder α] (layers : List (List α))
    (k : α) : k ∈ flattenSorted layers ↔ ∃ layer ∈ layers, k ∈ layer := by
  unfold flattenSorted
  rw [List.mem_flatten]
  constructor
  · rintro ⟨ls, hls, hk⟩
    obtain ⟨layer, hl, rfl⟩ := List.mem_map.mp hls
    exact ⟨layer, hl, (mem_sortList _ _).mp hk⟩
  · rintro ⟨layer, hl, hk⟩
    exact ⟨sortList layer, List.mem_map.mpr ⟨layer, hl, rfl⟩,
      (mem_sortList _ _).mpr hk⟩

theorem sorttopGo_sound {α : Type} [DecidableEq α] [LinearOrder α] (fuel : Nat) :
    ∀ (pending : List (α × List α)) (layers : List (List α)),
      (pending.map (fun q => q.1)).Nodup →
      sorttopGo fuel pending = .ok layers →
      ((∀ k, k ∈ flattenSorted layers ↔ k ∈ pending.map (fun q => q.1))
       ∧ (flattenSorted layers).Nodup
       ∧ ∀ p ∈ pending, ∀ d ∈ p.2, d ∈ pending.map (fun q => q.1) →
           before (flattenSorted layers) d p.1) := by
  induction fuel with
  | zero =>
    intro pending layers hnd hok
    cases pending with
    | nil =>
      cases hok
      refine ⟨fun k => by simp [flattenSorted], by simp [flattenSorted], ?_⟩
      intro p hp
      simp at hp
    | cons p ps => exact absurd hok (by simp [sorttopGo])
  | succ n ih =>
    intro pending layers hnd hok
    cases pending with
    | nil =>
      cases hok
      refine ⟨fun k => by simp [flattenSorted], by simp [flattenSorted], ?_⟩
      intro p hp
      simp at hp
    | cons p ps =>
      simp only [sorttopGo] at hok
      split at hok
      · cases hok
      · split at hok
        · rename_i rest heq
          cases hok
          have hsubl : List.Sublist ((p :: ps).filter
              (fun q => q.2.all (fun d =>
                ¬ ((p :: ps).map (fun q => q.1)).contains d))) (p :: ps) :=
            List.filter_sublist _
          have hndRK : (((p :: ps).filter
              (fun q => q.2.all (fun d =>
                ¬ ((p :: ps).map (fun q => q.1)).contains d))).map
                  (fun r => r.1)).Nodup :=
            List.Nodup.sublist (hsubl.map _) hnd
          have hsubl2 : List.Sublist ((p :: ps).filter
              (fun q => ¬ ((((p :: ps).filter
                (fun q => q.2.all (fun d =>
                  ¬ ((p :: ps).map (fun q => q.1)).contains d))).map
                    (fun r => r.1)).contains q.1))) (p :: ps) :=
            List.filter_sublist _
          have hndK2 : (((p :: ps).filter
              (fun q => ¬ ((((p :: ps).filter
                (fun q => q.2.all (fun d =>
                  ¬ ((p :: ps).map (fun q => q.1)).contains d))).map
                    (fun r => r.1)).contains q.1))).map (fun q => q.1)).Nodup :=
            List.Nodup.sublist (hsubl2.map _) hnd
          have hmemK2 : ∀ k, (k ∈ ((p :: ps).filter
              (fun q => ¬ ((((p :: ps).filter
                (fun q => q.2.all (fun d =>
                  ¬ ((p :: ps).map (fun q => q.1)).contains d))).map
                    (fun r => r.1)).contains q.1))).map (fun q => q.1))
              ↔ (k ∈ (p :: ps).map (fun q => q.1)
                 ∧ ¬ k ∈ (((p :: ps).filter
                    (fun q => q.2.all (fun d =>
                      ¬ ((p :: ps).map (fun q => q.1)).contains d))).map
                        (fun r => r.1))) := by
            intro k
            constructor
            · intro hk
              obtain ⟨q, hq, rfl⟩ := List.mem_map.mp hk
              have hqf := List.mem_filter.mp hq
              refine ⟨List.mem_map.mpr ⟨q, hqf.1, rfl⟩, ?_⟩
              have := hqf.2
              simpa [List.elem_iff] using this
            · rintro ⟨hk, hnr⟩
              obtain ⟨q, hq, rfl⟩ := List.mem_map.mp hk
              exact List.mem_map.mpr ⟨q, List.mem_filter.mpr
                ⟨hq, by simpa [List.elem_iff] using hnr⟩, rfl⟩
          have hRKsub : ∀ k ∈ (((p :: ps).filter
              (fun q => q.2.all (fun d =>
                ¬ ((p :: ps).map (fun q => q.1)).contains d))).map
                  (fun r => r.1)), k ∈ (p :: ps).map (fun q => q.1) := by
            intro k hk
            obtain ⟨q, hq, rfl⟩ := List.mem_map.mp hk
            exact List.mem_map.mpr ⟨q, (List.mem_filter.mp hq).1, rfl⟩
          obtain ⟨ih1, ih2, ih3⟩ := ih _ rest hndK2 heq
          have hfl : flattenSorted ((((p :: ps).filter
              (fun q => q.2.all (fun d =>
                ¬ ((p :: ps).map (fun q => q.1)).contains d))).map
                  (fun r => r.1)) :: rest)
              = sortList (((p :: ps).filter
                  (fun q => q.2.all (fun d =>
                    ¬ ((p :: ps).map (fun q => q.1)).contains d))).map
                      (fun r => r.1)) ++ flattenSorted rest := by
            unfold flattenSorted
            rw [List.map_cons, List.flatten_cons]
          refine ⟨?_, ?_, ?_⟩
          · intro k
            rw [hfl, List.mem_append, mem_sortList, ih1 k, hmemK2 k]
            constructor
            · rintro (h | h)
              · exact hRKsub k h
              · exact h.1
            · intro h
              by_cases hr : k ∈ (((p :: ps).filter
                  (fun q => q.2.all (fun d =>
                    ¬ ((p :: ps).map (fun q => q.1)).contains d))).map
                      (fun r => r.1))
              · exact Or.inl hr
              · exact Or.inr ⟨h, hr⟩
          · rw [hfl]
            apply List.Nodup.append
            · exact ((sortList_perm _).nodup_iff).mpr hndRK
            · exact ih2
            · intro a ha hb
              have ha2 := (mem_sortList _ _).mp ha
              have hb2 := (hmemK2 a).mp ((ih1 a).mp hb)
              exact hb2.2 ha2
          · intro p0 hp0 d hd hdkeys
            by_cases hp0r : p0.1 ∈ (((p :: ps).filter
                (fun q => q.2.all (fun d =>
                  ¬ ((p :: ps).map (fun q => q.1)).contains d))).map
                    (fun r => r.1))
            · obtain ⟨q, hq, hq1⟩ := List.mem_map.mp hp0r
              have hqP := (List.mem_filter.mp hq).1
              have hqready := (List.mem_filter.mp hq).2
              have hq_eq : q = p0 := List.inj_on_of_nodup_map hnd hqP hp0 hq1
              rw [hq_eq] at hqready
              have hall := List.all_eq_true.mp hqready d hd
              simp only [decide_eq_true_eq, List.elem_iff] at hall
              exact absurd hdkeys (by simpa [List.elem_iff] using hall)
            · have hp02 : p0 ∈ (p :: ps).filter
                  (fun q => ¬ ((((p :: ps).filter
                    (fun q => q.2.all (fun d =>
                      ¬ ((p :: ps).map (fun q => q.1)).contains d))).map
                        (fun r => r.1)).contains q.1)) :=
                List.mem_filter.mpr ⟨hp0, by simpa [List.elem_iff] using hp0r⟩
              by_cases hdr : d ∈ (((p :: ps).filter
                  (fun q => q.2.all (fun d =>
                    ¬ ((p :: ps).map (fun q => q.1)).contains d))).map
                      (fun r => r.1))
              · rw [hfl]
                apply before_append_of_mem
                · exact (mem_sortList _ _).mpr hdr
                · exact (ih1 p0.1).mpr (List.mem_map.mpr ⟨p0, hp02, rfl⟩)
              · have hdk2 := (hmemK2 d).mpr ⟨hdkeys, hdr⟩
                have hb := ih3 p0 hp02 d hd hdk2
                rw [hfl]
                exact before_append_right _ _ _ _ hb
        · cases hok

theorem exists_min_fn {α : Type} (f : α → Nat) (l : List α) (h : ¬ (l = [])) :
    ∃ m ∈ l, ∀ x ∈ l, f m ≤ f x := by
  induction l with
  | nil => exact absurd rfl h
  | cons a as ih =>
    cases has : as with
    | nil => exact ⟨a, by simp, by simp⟩
    | cons b bs =>
      obtain ⟨m, hm, hmin⟩ := ih (by simp [has])
      by_cases hle : f a ≤ f m
      · refine ⟨a, by simp, ?_⟩
        intro x hx
        rcases List.mem_cons.mp hx with h1 | h1
        · rw [h1]
        · exact hle.trans (hmin x (has ▸ h1))
      · refine ⟨m, List.mem_cons_of_mem _ (has ▸ hm), ?_⟩
        intro x hx
        rcases List.mem_cons.mp hx with h1 | h1
        · rw [h1]; omega
        · exact hmin x (has ▸ h1)

theorem sorttopGo_ok_of_acyclic {α : Type} [DecidableEq α] (fuel : Nat) :
    ∀ (pending : List (α × List α)) (rank : α → Nat),
      pending.length ≤ fuel →
      (∀ p ∈ pending, ∀ d ∈ p.2, d ∈ pending.map (fun q => q.1) →
        rank d < rank p.1) →
      ∃ layers, sorttopGo fuel pending = .ok layers := by
  induction fuel with
  | zero =>
    intro pending rank hlen hac
    cases pending with
    | nil => exact ⟨[], rfl⟩
    | cons p ps => simp at hlen
  | succ n ih =>
    intro pending rank hlen hac
    cases pending with
    | nil => exact ⟨[], rfl⟩
    | cons p ps =>
      obtain ⟨m, hm, hmin⟩ := exists_min_fn (fun q => rank q.1) (p :: ps)
        (by simp)
      have hmready : m ∈ (p :: ps).filter
          (fun q => q.2.all (fun d =>
            ¬ ((p :: ps).map (fun q => q.1)).contains d)) := by
        refine List.mem_filter.mpr ⟨hm, ?_⟩
        apply List.all_eq_true.mpr
        intro d hd
        simp only [decide_eq_true_eq, List.elem_iff]
        intro hdk
        have h1 := hac m hm d hd hdk
        obtain ⟨q, hq, hq1⟩ := List.mem_map.mp hdk
        have h2 := hmin q hq
        rw [hq1] at h2
        omega
      have hm1 : m.1 ∈ (((p :: ps).filter
          (fun q => q.2.all (fun d =>
            ¬ ((p :: ps).map (fun q => q.1)).contains d))).map
              (fun r => r.1)) :=
        List.mem_map.mpr ⟨m, hmready, rfl⟩
      have hni : ¬ (((p :: ps).filter
          (fun q => q.2.all (fun d =>
            ¬ ((p :: ps).map (fun q => q.1)).contains d))).isEmpty = true) := by
        rw [List.isEmpty_iff]
        intro hempty
        rw [hempty] at hmready
        cases hmready
      have hlt : ((p :: ps).filter
          (fun q => ¬ ((((p :: ps).filter
            (fun q => q.2.all (fun d =>
              ¬ ((p :: ps).map (fun q => q.1)).contains d))).map
                (fun r => r.1)).contains q.1))).length < (p :: ps).length := by
        apply List.length_filter_lt_length_iff_exists.mpr
        exact ⟨m, hm, by simpa [List.elem_iff] using hm1⟩
      have hlen2 : ((p :: ps).filter
          (fun q => ¬ ((((p :: ps).filter
            (fun q => q.2.all (fun d =>
              ¬ ((p :: ps).map (fun q => q.1)).contains d))).map
                (fun r => r.1)).contains q.1))).length ≤ n := by
        have := hlen
        simp only [List.length_cons] at this hlt ⊢
        omega
      have hac2 : ∀ q ∈ ((p :: ps).filter
          (fun q => ¬ ((((p :: ps).filter
            (fun q => q.2.all (fun d =>
              ¬ ((p :: ps).map (fun q => q.1)).contains d))).map
                (fun r => r.1)).contains q.1))),
          ∀ d ∈ q.2, d ∈ ((p :: ps).filter
            (fun q => ¬ ((((p :: ps).filter
              (fun q => q.2.all (fun d =>
                ¬ ((p :: ps).map (fun q => q.1)).contains d))).map
                  (fun r => r.1)).contains q.1))).map (fun q => q.1) →
          rank d < rank q.1 := by
        intro q hq d hd hdk
        obtain ⟨q2, hq2, hq21⟩ := List.mem_map.mp hdk
        exact hac q (List.mem_filter.mp hq).1 d hd
          (List.mem_map.mpr ⟨q2, (List.mem_filter.mp hq2).1, hq21⟩)
      obtain ⟨layers2, hl2⟩ := ih _ rank hlen2 hac2
      refine ⟨(((p :: ps).filter
          (fun q => q.2.all (fun d =>
            ¬ ((p :: ps).map (fun q => q.1)).contains d))).map
              (fun r => r.1)) :: layers2, ?_⟩
      simp only [sorttopGo]
      rw [if_neg hni, hl2]

/-- The stored parent ids of interface `c` (empty when the row is absent). -/
def parentIdsOf (s : Store) (c : Nat) : List Nat :=
  ((s.findIface? c).map (fun a => a.parents)).getD []

/-- C3: for a desired mapping whose parent relation is acyclic (witnessed
by a rank function), the construction order exists, contains exactly the
mapping's keys once each, and places every interface strictly after all of
its parents; the deletion order over the remaining stored interfaces exists
and places every interface strictly after all of its children (children
first).  Ties inside a dependency batch are broken by sorting the batch, so
the order is a deterministic function of the input. -/
theorem c3_topological_soundness
    (interfaces : List (String × IfaceCfg)) (s : Store) (current : List Nat)
    (rank : String → Nat) (rank2 : Nat → Nat)
    (hkeys : (interfaces.map (fun p => p.1)).Nodup)
    (hacyc : ∀ p ∈ interfaces, ∀ d ∈ p.2.parents,
        d ∈ interfaces.map (fun q => q.1) → rank d < rank p.1)
    (hcur : current.Nodup)
    (hacyc2 : ∀ c ∈ current, ∀ d ∈ parentIdsOf s c,
        d ∈ current → rank2 d < rank2 c) :
    (∃ order, processOrderNames interfaces = .ok order
      ∧ (∀ k, k ∈ order ↔ k ∈ interfaces.map (fun p => p.1))
      ∧ order.Nodup
      ∧ ∀ p ∈ interfaces, ∀ d ∈ p.2.parents,
          d ∈ interfaces.map (fun q => q.1) → before order d p.1)
    ∧ (∃ dorder, deletionOrderIds s current = .ok dorder
      ∧ (∀ k, k ∈ dorder ↔ k ∈ current)
      ∧ dorder.Nodup
      ∧ ∀ i ∈ current, ∀ c ∈ current,
          i ∈ parentIdsOf s c → before dorder c i) := by
  constructor
  · have hkeq : (interfaces.map (fun p => (p.1, p.2.parents))).map
        (fun q => q.1) = interfaces.map (fun p => p.1) := by
      simp [List.map_map, Function.comp]
    have hnd2 : ((interfaces.map (fun p => (p.1, p.2.parents))).map
        (fun q => q.1)).Nodup := by
      rw [hkeq]; exact hkeys
    have hac2 : ∀ q ∈ interfaces.map (fun p => (p.1, p.2.parents)),
        ∀ d ∈ q.2, d ∈ (interfaces.map (fun p => (p.1, p.2.parents))).map
          (fun q => q.1) → rank d < rank q.1 := by
      intro q hq d hd hdk
      obtain ⟨p0, hp0, rfl⟩ := List.mem_map.mp hq
      exact hacyc p0 hp0 d hd (by rw [hkeq] at hdk; exact hdk)
    obtain ⟨layers, hok⟩ := sorttopGo_ok_of_acyclic
      (interfaces.map (fun p => (p.1, p.2.parents))).length _ rank
      (le_refl _) hac2
    obtain ⟨s1, s2, s3⟩ := sorttopGo_sound _ _ layers hnd2 hok
    refine ⟨flattenSorted layers, ?_, ?_, s2, ?_⟩
    · unfold processOrderNames sorttop
      rw [hok]
      rfl
    · intro k
      rw [s1 k, hkeq]
    · intro p0 hp0 d hd hdk
      exact s3 (p0.1, p0.2.parents) (List.mem_map.mpr ⟨p0, hp0, rfl⟩) d hd
        (by rw [hkeq]; exact hdk)
  · have hkeq : ((current.map (fun i => (i, ((s.findIface? i).map
        (fun a => a.parents.filter (fun q => current.contains q))).getD
          []))).map (fun q => q.1)) = current := by
      rw [List.map_map]
      exact List.map_id current
    have hnd2 : ((current.map (fun i => (i, ((s.findIface? i).map
        (fun a => a.parents.filter (fun q => current.contains q))).getD
          []))).map (fun q => q.1)).Nodup := by
      rw [hkeq]; exact hcur
    have hdepmem : ∀ c d, (d ∈ ((s.findIface? c).map
        (fun a => a.parents.filter (fun q => current.contains q))).getD [])
        ↔ (d ∈ parentIdsOf s c ∧ d ∈ current) := by
      intro c d
      unfold parentIdsOf
      cases hf : s.findIface? c with
      | none => simp
      | some a => simp [List.mem_filter, List.elem_iff]
    have hac2 : ∀ q ∈ (current.map (fun i => (i, ((s.findIface? i).map
        (fun a => a.parents.filter (fun q => current.contains q))).getD []))),
        ∀ d ∈ q.2, d ∈ ((current.map (fun i => (i, ((s.findIface? i).map
          (fun a => a.parents.filter (fun q => current.contains q))).getD
            []))).map (fun q => q.1)) → rank2 d < rank2 q.1 := by
      intro q hq d hd hdk
      obtain ⟨c, hc, rfl⟩ := List.mem_map.mp hq
      obtain ⟨hd1, hd2⟩ := (hdepmem c d).mp hd
      exact hacyc2 c hc d hd1 hd2
    obtain ⟨layers, hok⟩ := sorttopGo_ok_of_acyclic
      (current.map (fun i => (i, ((s.findIface? i).map
        (fun a => a.parents.filter (fun q => current.contains q))).getD
          []))).length _ rank2 (le_refl _) hac2
    obtain ⟨t1, t2, t3⟩ := sorttopGo_sound _ _ layers hnd2 hok
    refine ⟨(flattenSorted layers).reverse, ?_, ?_, ?_, ?_⟩
    · unfold deletionOrderIds sorttop
      dsimp only
      rw [hok]
      rfl
    · intro k
      rw [List.mem_reverse, t1 k, hkeq]
    · exact List.nodup_reverse.mpr t2
    · intro i hi c hc hpar
      apply before_reverse
      exact t3 (c, ((s.findIface? c).map
          (fun a => a.parents.filter (fun q => current.contains q))).getD [])
        (List.mem_map.mpr ⟨c, hc, rfl⟩) i
        ((hdepmem c i).mpr ⟨hpar, hi⟩) (by rw [hkeq]; exact hi)

def c3Demo : List (String × IfaceCfg) :=
  [("bond0", { itype := "bond", parents := ["eth0", "eth1"], mac := "bm",
               enabled := true, links := [], vid := 0 }),
   ("eth0", { itype := "physical", parents := [], mac := "m1",
              enabled := true, links := [], vid := 0 }),
   ("eth1", { itype := "physical", parents := [], mac := "m2",
              enabled := true, links := [], vid := 0 })]

theorem c3_topological_soundness_witness :
    (∃ order, processOrderNames c3Demo = .ok order
      ∧ (∀ k, k ∈ order ↔ k ∈ c3Demo.map (fun p => p.1))
      ∧ order.Nodup
      ∧ ∀ p ∈ c3Demo, ∀ d ∈ p.2.parents,
          d ∈ c3Demo.map (fun q => q.1) → before order d p.1)
    ∧ (∃ dorder, deletionOrderIds c7Store [10, 11, 12] = .ok dorder
      ∧ (∀ k, k ∈ dorder ↔ k ∈ [10, 11, 12])
      ∧ dorder.Nodup
      ∧ ∀ i ∈ [10, 11, 12], ∀ c ∈ [10, 11, 12],
          i ∈ parentIdsOf c7Store c → before dorder c i) :=
  c3_topological_soundness c3Demo c7Store [10, 11, 12]
    (fun n => if n = "bond0" then 1 else 0) (fun i => if i = 10 then 2 else 0)
    (by decide) (by decide) (by decide) (by decide)

/-! ## Link-table and address-row lemmas -/

theorem mem_links_removeLink (s : Store) (j ip : Nat) (pair : Nat × Nat) :
    pair ∈ (s.removeLink j ip).links ↔ (pair ∈ s.links ∧ ¬ (pair = (j, ip))) := by
  unfold Store.removeLink
  by_cases hc : s.links.contains (j, ip)
  · rw [if_pos hc]
    simp [List.mem_filter]
  · rw [if_neg hc]
    constructor
    · intro h
      refine ⟨h, ?_⟩
      intro heq
      rw [heq] at h
      exact hc (List.elem_iff.mpr h)
    · intro h
      exact h.1

theorem mem_links_addLink (s : Store) (i ip : Nat) (pair : Nat × Nat) :
    pair ∈ (s.addLink i ip).links ↔ (pair ∈ s.links ∨ pair = (i, ip)) := by
  unfold Store.addLink
  by_cases hc : s.links.contains (i, ip)
  · rw [if_pos hc]
    constructor
    · exact Or.inl
    · rintro (h | h)
      · exact h
      · rw [h]; exact List.elem_iff.mp hc
  · rw [if_neg hc]
    simp [List.mem_append]

theorem mem_links_removeFold (ip : Nat) (doomed : List Nat) (t : Store)
    (pair : Nat × Nat) :
    pair ∈ (doomed.foldl (fun u j => u.removeLink j ip) t).links
      ↔ (pair ∈ t.links ∧ ¬ (pair.2 = ip ∧ pair.1 ∈ doomed)) := by
  induction doomed generalizing t with
  | nil => simp
  | cons j rest ih =>
    rw [List.foldl_cons, ih, mem_links_removeLink]
    constructor
    · rintro ⟨⟨h1, h2⟩, h3⟩
      refine ⟨h1, ?_⟩
      rintro ⟨hip, hmem⟩
      rcases List.mem_cons.mp hmem with hj | hj
      · apply h2
        rw [← hip, ← hj]
      · exact h3 ⟨hip, hj⟩
    · rintro ⟨h1, h2⟩
      refine ⟨⟨h1, ?_⟩, ?_⟩
      · intro heq
        exact h2 ⟨by rw [heq], by rw [heq]; simp⟩
      · rintro ⟨hip, hmem⟩
        exact h2 ⟨hip, List.mem_cons_of_mem _ hmem⟩

theorem mem_links_unlinkFold (i : Nat) (cur : List IpR) (t : Store)
    (pair : Nat × Nat) :
    pair ∈ (cur.foldl (fun u r => unlink_ip_address u i r.id) t).links
      ↔ (pair ∈ t.links ∧ ¬ (pair.1 = i ∧ ∃ r ∈ cur, pair.2 = r.id)) := by
  induction cur generalizing t with
  | nil => simp
  | cons r rest ih =>
    rw [List.foldl_cons, ih,
      show unlink_ip_address t i r.id = t.removeLink i r.id from rfl,
      mem_links_removeLink]
    constructor
    · rintro ⟨⟨h1, h2⟩, h3⟩
      refine ⟨h1, ?_⟩
      rintro ⟨hi, ⟨q, hq, hqid⟩⟩
      rcases List.mem_cons.mp hq with hj | hj
      · apply h2
        rw [show pair = (pair.1, pair.2) from rfl, hi, hqid, hj]
      · exact h3 ⟨hi, q, hj, hqid⟩
    · rintro ⟨h1, h2⟩
      refine ⟨⟨h1, ?_⟩, ?_⟩
      · intro heq
        exact h2 ⟨by rw [heq], r, by simp, by rw [heq]⟩
      · rintro ⟨hi, q, hq, hqid⟩
        exact h2 ⟨hi, q, List.mem_cons_of_mem _ hq, hqid⟩

theorem find?_map_setIp (l : List IpR) (a : IpR) (x : Nat) (hx : ¬ (x = a.id)) :
    (l.map (fun b => if b.id = a.id then a else b)).find? (fun b => b.id = x)
      = l.find? (fun b => b.id = x) := by
  induction l with
  | nil => rfl
  | cons y ys ih =>
    by_cases hy : y.id = a.id
    · have h1 : ¬ ((fun (b : IpR) => decide (b.id = x)) a = true) := by
        simp only [decide_eq_true_eq]
        intro h; exact hx h.symm
      have h2 : ¬ ((fun (b : IpR) => decide (b.id = x)) y = true) := by
        simp only [decide_eq_true_eq]
        intro h; exact hx (hy ▸ h).symm
      simp only [List.map_cons, if_pos hy]
      rw [List.find?_cons_of_neg (p := fun (b : IpR) => decide (b.id = x)) _ h1,
        List.find?_cons_of_neg (p := fun (b : IpR) => decide (b.id = x)) _ h2, ih]
    · by_cases hyx : ((fun (b : IpR) => decide (b.id = x)) y = true)
      · simp only [List.map_cons, if_neg hy]
        rw [List.find?_cons_of_pos (p := fun (b : IpR) => decide (b.id = x)) _ hyx,
          List.find?_cons_of_pos (p := fun (b : IpR) => decide (b.id = x)) _ hyx]
      · simp only [List.map_cons, if_neg hy]
        rw [List.find?_cons_of_neg (p := fun (b : IpR) => decide (b.id = x)) _ hyx,
          List.find?_cons_of_neg (p := fun (b : IpR) => decide (b.id = x)) _ hyx, ih]

theorem Store.findIp?_setIp_other (s : Store) (a : IpR) (x : Nat)
    (hx : ¬ (x = a.id)) : (s.setIp a).findIp? x = s.findIp? x := by
  unfold Store.setIp Store.findIp?
  exact find?_map_setIp s.ips a x hx

theorem find?_map_setIp_self (l : List IpR) (a : IpR)
    (h : (l.find? (fun b => b.id = a.id)).isSome) :
    (l.map (fun b => if b.id = a.id then a else b)).find? (fun b => b.id = a.id)
      = some a := by
  induction l with
  | nil => simp at h
  | cons y ys ih =>
    by_cases hy : y.id = a.id
    · simp [List.find?, hy]
    · simp only [List.map_cons, List.find?, if_neg hy]
      simp only [List.find?] at h
      rw [decide_eq_false hy] at h ⊢
      exact ih h

theorem Store.findIp?_setIp_self (s : Store) (a : IpR)
    (h : (s.findIp? a.id).isSome) : (s.setIp a).findIp? a.id = some a := by
  unfold Store.setIp Store.findIp?
  exact find?_map_setIp_self s.ips a h

theorem Store.findIp?_addWrite (s : Store) (e : WEvent) (x : Nat) :
    (s.addWrite e).findIp? x = s.findIp? x := rfl

theorem Store.findIp?_addLink (s : Store) (i ip x : Nat) :
    (s.addLink i ip).findIp? x = s.findIp? x := by
  unfold Store.addLink
  split <;> rfl

theorem Store.findIp?_removeLink (s : Store) (j ip x : Nat) :
    (s.removeLink j ip).findIp? x = s.findIp? x := by
  unfold Store.removeLink
  split <;> rfl

theorem Store.findIp?_removeFold (ip : Nat) (doomed : List Nat) (t : Store)
    (x : Nat) :
    (doomed.foldl (fun u j => u.removeLink j ip) t).findIp? x = t.findIp? x := by
  induction doomed generalizing t with
  | nil => rfl
  | cons j rest ih =>
    rw [List.foldl_cons, ih, Store.findIp?_removeLink]

theorem Store.findIp?_unlinkFold (i : Nat) (cur : List IpR) (t : Store)
    (x : Nat) :
    (cur.foldl (fun u r => unlink_ip_address u i r.id) t).findIp? x
      = t.findIp? x := by
  induction cur generalizing t with
  | nil => rfl
  | cons r rest ih =>
    rw [List.foldl_cons, ih,
      show unlink_ip_address t i r.id = t.removeLink i r.id from rfl,
      Store.findIp?_removeLink]

theorem Store.links_setIp (s : Store) (r : IpR) :
    (s.setIp r).links = s.links := rfl

theorem Store.links_setSubnet (s : Store) (r : SubnetR) :
    (s.setSubnet r).links = s.links := rfl

theorem Store.links_addLog (s : Store) (e : LogE) :
    (s.addLog e).links = s.links := rfl

theorem Store.ips_setSubnet (s : Store) (r : SubnetR) :
    (s.setSubnet r).ips = s.ips := rfl

theorem Store.ips_addLog (s : Store) (e : LogE) :
    (s.addLog e).ips = s.ips := rfl

theorem Store.ips_addWrite (s : Store) (e : WEvent) :
    (s.addWrite e).ips = s.ips := rfl

theorem Store.findIp?_setSubnet (s : Store) (r : SubnetR) (x : Nat) :
    (s.setSubnet r).findIp? x = s.findIp? x := rfl

theorem Store.ifaces_removeFold (ip : Nat) (doomed : List Nat) (t : Store) :
    (doomed.foldl (fun u j => u.removeLink j ip) t).ifaces = t.ifaces := by
  induction doomed generalizing t with
  | nil => rfl
  | cons j rest ih =>
    rw [List.foldl_cons, ih, Store.ifaces_removeLink]

theorem Store.ifaces_unlinkFold (i : Nat) (cur : List IpR) (t : Store) :
    (cur.foldl (fun u r => unlink_ip_address u i r.id) t).ifaces = t.ifaces := by
  induction cur generalizing t with
  | nil => rfl
  | cons r rest ih =>
    rw [List.foldl_cons, ih,
      show unlink_ip_address t i r.id = t.removeLink i r.id from rfl,
      Store.ifaces_removeLink]

theorem Store.ids_setIface (s : Store) (a : Iface) :
    (s.setIface a).ifaces.map (fun b => b.id) = s.ifaces.map (fun b => b.id) := by
  unfold Store.setIface
  simp only [List.map_map]
  apply List.map_congr_left
  intro b hb
  by_cases h : b.id = a.id
  · simp [Function.comp, if_pos h, h]
  · simp [Function.comp, if_neg h]

theorem Store.findIface?_deleteIps (s : Store) (ids : List Nat) (x : Nat) :
    (s.deleteIps ids).findIface? x = s.findIface? x := rfl

theorem Store.findIface?_setIp (s : Store) (r : IpR) (x : Nat) :
    (s.setIp r).findIface? x = s.findIface? x := rfl

theorem Store.findIface?_setSubnet (s : Store) (r : SubnetR) (x : Nat) :
    (s.setSubnet r).findIface? x = s.findIface? x := rfl

theorem Store.findIface?_createFabric (s : Store) (x : Nat) :
    (s.createFabric).2.findIface? x = s.findIface? x := rfl

theorem Store.findIp?_isSome_of_mem (s : Store) (r : IpR) (hr : r ∈ s.ips) :
    (s.findIp? r.id).isSome := by
  unfold Store.findIp?
  exact List.find?_isSome.mpr ⟨r, hr, by simp⟩

theorem staticUpsertTail_facts (node i subnetId : Nat) (ipRow : IpR)
    (s : Store) (current : List IpR) (updated : List Nat) (ipA : String)
    (a0 : Iface)
    (hiface : s.findIface? i = some a0)
    (hnode : a0.node = node)
    (hidnd : (s.ifaces.map (fun a => a.id)).Nodup)
    (hexist : (s.findIp? ipRow.id).isSome)
    (hip : ipRow.ip = some ipA)
    (hcur : ∀ x ∈ current, ¬ (x.id = ipRow.id)) :
    (staticUpsertTail node i subnetId ipRow s current updated).2.2
      = addUpdated updated ipRow.id
    ∧ (i, ipRow.id) ∈ (staticUpsertTail node i subnetId ipRow s current updated).1.links
    ∧ (∀ a ∈ (staticUpsertTail node i subnetId ipRow s current updated).1.ifaces,
        ¬ (a.node = node) →
        ¬ ((a.id, ipRow.id) ∈ (staticUpsertTail node i subnetId ipRow s current updated).1.links))
    ∧ (staticUpsertTail node i subnetId ipRow s current updated).1.findIp? ipRow.id
        = some { ipRow with allocType := AllocType.sticky, subnet := some subnetId }
    ∧ (staticUpsertTail node i subnetId ipRow s current updated).2.1 = current
    ∧ (staticUpsertTail node i subnetId ipRow s current updated).1.ifaces = s.ifaces := by
  unfold staticUpsertTail
  dsimp only
  set r3 : IpR := { ipRow with allocType := AllocType.sticky, subnet := some subnetId } with hr3
  set doomed := (s.ifaces.filter (fun a =>
      ¬ (a.node = node) ∧ s.links.contains (a.id, ipRow.id))).map
      (fun a => a.id) with hdoomed
  set t2 := doomed.foldl (fun t j => t.removeLink j ipRow.id) s with ht2
  have hifeq : (((t2.setIp r3).addWrite
      (.updateRow "staticipaddress" r3.id)).addLink i r3.id).ifaces
      = s.ifaces := by
    rw [Store.ifaces_addLink, Store.ifaces_addWrite, Store.ifaces_setIp, ht2,
      Store.ifaces_removeFold]
  refine ⟨rfl, ?_, ?_, ?_, rfl, hifeq⟩
  · rw [mem_links_addLink]
    exact Or.inr rfl
  · intro a hmem hanode hlink
    rw [hifeq] at hmem
    rw [mem_links_addLink] at hlink
    rcases hlink with hlink | hlink
    · rw [Store.links_addWrite, Store.links_setIp] at hlink
      rw [ht2, mem_links_removeFold] at hlink
      obtain ⟨hl1, hl2⟩ := hlink
      apply hl2
      refine ⟨rfl, ?_⟩
      rw [hdoomed]
      apply List.mem_map.mpr
      refine ⟨a, ?_, rfl⟩
      rw [List.mem_filter]
      refine ⟨hmem, ?_⟩
      simp only [Bool.and_eq_true, decide_eq_true_eq]
      exact ⟨hanode, List.elem_iff.mpr hl1⟩
    · have hai : a.id = i := by
        have h5 := congrArg Prod.fst hlink
        simpa using h5
      have ha0mem : a0 ∈ s.ifaces := List.mem_of_find?_eq_some hiface
      have ha0id : a0.id = i := by simpa using List.find?_some hiface
      have h6 : a = a0 := List.inj_on_of_nodup_map hidnd hmem ha0mem
        (by rw [hai, ha0id])
      rw [h6] at hanode
      exact hanode hnode
  · rw [show (((t2.setIp r3).addWrite
        (.updateRow "staticipaddress" r3.id)).addLink i r3.id).findIp? ipRow.id
        = (t2.setIp r3).findIp? ipRow.id from by
      rw [Store.findIp?_addLink, Store.findIp?_addWrite]]
    have h7 : (t2.findIp? r3.id).isSome := by
      show (t2.findIp? ipRow.id).isSome
      rw [ht2, Store.findIp?_removeFold]
      exact hexist
    exact Store.findIp?_setIp_self t2 r3 h7

theorem staticResolveAndUpsert_facts (node i subId : Nat) (ipA : String)
    (sg : Store) (current : List IpR) (updated : List Nat) (a0 : Iface)
    (hiface : sg.findIface? i = some a0)
    (hnode : a0.node = node)
    (hidnd : (sg.ifaces.map (fun a => a.id)).Nodup)
    (hipnd : (sg.ips.map (fun r => r.id)).Nodup)
    (hipbound : ∀ r ∈ sg.ips, r.id < sg.nextId)
    (hcurmem : ∀ x ∈ current, x ∈ sg.ips) :
    ∃ rid,
      (staticResolveAndUpsert node i subId ipA sg current updated).2.2
        = addUpdated updated rid
      ∧ (i, rid) ∈ (staticResolveAndUpsert node i subId ipA sg current updated).1.links
      ∧ (∀ a ∈ (staticResolveAndUpsert node i subId ipA sg current updated).1.ifaces,
          ¬ (a.node = node) →
          ¬ ((a.id, rid) ∈ (staticResolveAndUpsert node i subId ipA sg current updated).1.links))
      ∧ (∃ r, (staticResolveAndUpsert node i subId ipA sg current updated).1.findIp? rid
            = some r ∧ r.allocType = AllocType.sticky ∧ r.ip = some ipA)
      ∧ (∀ x ∈ (staticResolveAndUpsert node i subId ipA sg current updated).2.1,
          ¬ (x.id = rid))
      ∧ (staticResolveAndUpsert node i subId ipA sg current updated).1.ifaces
          = sg.ifaces := by
  unfold staticResolveAndUpsert
  cases hfc : get_ip_address_from_ip_addresses node ipA current with
  | some r =>
    dsimp only
    have hrcur : r ∈ current := List.mem_of_find?_eq_some hfc
    have hrip : r.ip = some ipA := by simpa using List.find?_some hfc
    have hexist : (sg.findIp? r.id).isSome :=
      Store.findIp?_isSome_of_mem sg r (hcurmem r hrcur)
    have hcur2 : ∀ x ∈ current.filter (fun x => ¬ (x.id = r.id)),
        ¬ (x.id = r.id) := by
      intro x hx
      have := (List.mem_filter.mp hx).2
      simpa using this
    obtain ⟨f1, f2, f3, f4, f5, f6⟩ := staticUpsertTail_facts node i subId r sg
      (current.filter (fun x => ¬ (x.id = r.id))) updated ipA a0 hiface hnode
      hidnd hexist hrip hcur2
    exact ⟨r.id, f1, f2, f3,
      ⟨_, f4, rfl, hrip⟩,
      by rw [f5]; exact hcur2, f6⟩
  | none =>
    dsimp only
    have hnone : ∀ x ∈ current, ¬ (x.ip = some ipA) := by
      intro x hx
      have := List.find?_eq_none.mp hfc x hx
      simpa using this
    cases hfi : sg.ips.find? (fun q => q.ip = some ipA) with
    | some r =>
      dsimp only
      have hrmem : r ∈ sg.ips := List.mem_of_find?_eq_some hfi
      have hrip : r.ip = some ipA := by simpa using List.find?_some hfi
      have hexist0 : (sg.findIp? r.id).isSome :=
        Store.findIp?_isSome_of_mem sg r hrmem
      have hset : ((sg.setIp { r with allocType := AllocType.sticky, subnet := some subId }).addWrite (.updateRow "staticipaddress" r.id)).findIp? r.id = some { r with allocType := AllocType.sticky, subnet := some subId } := by
        rw [Store.findIp?_addWrite]
        exact Store.findIp?_setIp_self sg _ hexist0
      have hexist : (((sg.setIp { r with allocType := AllocType.sticky, subnet := some subId }).addWrite (.updateRow "staticipaddress" r.id)).findIp? ({ r with allocType := AllocType.sticky, subnet := some subId } : IpR).id).isSome := by
        show (((sg.setIp { r with allocType := AllocType.sticky, subnet := some subId }).addWrite (.updateRow "staticipaddress" r.id)).findIp? r.id).isSome
        rw [hset]
        rfl
      have hcur2 : ∀ x ∈ current,
          ¬ (x.id = ({ r with allocType := AllocType.sticky, subnet := some subId } : IpR).id) := by
        intro x hx hxid
        have hxmem : x ∈ sg.ips := hcurmem x hx
        have hxr : x = r := by
          apply List.inj_on_of_nodup_map hipnd hxmem hrmem
          simpa using hxid
        rw [hxr] at hx
        exact hnone r hx hrip
      obtain ⟨f1, f2, f3, f4, f5, f6⟩ := staticUpsertTail_facts node i subId
        { r with allocType := AllocType.sticky, subnet := some subId }
        ((sg.setIp { r with allocType := AllocType.sticky, subnet := some subId }).addWrite (.updateRow "staticipaddress" r.id))
        current updated ipA a0
        (by rw [Store.findIface?_addWrite, Store.findIface?_setIp]; exact hiface)
        hnode
        (by rw [Store.ifaces_addWrite, Store.ifaces_setIp]; exact hidnd)
        hexist hrip hcur2
      refine ⟨r.id, f1, f2, ?_, ?_, ?_, ?_⟩
      · intro a ha
        rw [Store.ifaces_addWrite, Store.ifaces_setIp] at f6
        exact f3 a ha
      · exact ⟨_, f4, rfl, hrip⟩
      · rw [f5]; exact hcur2
      · rw [f6, Store.ifaces_addWrite, Store.ifaces_setIp]
    | none =>
      dsimp only
      have hfresh : ∀ x ∈ current, ¬ (x.id = sg.nextId) := by
        intro x hx hxid
        have := hipbound x (hcurmem x hx)
        omega
      have hfresh2 : ∀ x ∈ current,
          ¬ (x.id = ((sg.createIp AllocType.sticky (some ipA) (some subId)).1).id) :=
        hfresh
      have hexist : (((sg.createIp AllocType.sticky (some ipA) (some subId)).2).findIp?
          ((sg.createIp AllocType.sticky (some ipA) (some subId)).1).id).isSome := by
        apply Store.findIp?_isSome_of_mem _
          (sg.createIp AllocType.sticky (some ipA) (some subId)).1
        show (sg.createIp AllocType.sticky (some ipA) (some subId)).1
          ∈ sg.ips ++ [(sg.createIp AllocType.sticky (some ipA) (some subId)).1]
        simp
      obtain ⟨f1, f2, f3, f4, f5, f6⟩ := staticUpsertTail_facts node i subId
        (sg.createIp AllocType.sticky (some ipA) (some subId)).1
        (sg.createIp AllocType.sticky (some ipA) (some subId)).2
        current updated ipA a0 hiface hnode hidnd hexist rfl hfresh2
      refine ⟨((sg.createIp AllocType.sticky (some ipA) (some subId)).1).id,
        f1, f2, f3, ⟨_, f4, rfl, rfl⟩, ?_, ?_⟩
      · rw [f5]
        exact hfresh2
      · rw [f6]
        show sg.ifaces = sg.ifaces
        rfl

/-- C5 — for every static link processed by `update_links`, the resolve-and-
upsert step of lines 613-645 leaves a STICKY address row holding the link's
ip, linked to the interface being reconciled, and not linked to any interface
belonging to a different node: the detach loop of lines 636-638 removes
exactly the links from other-node interfaces.  (Links from other interfaces
of the same node are NOT removed; see `c5_same_node_retention`.) -/
theorem c5_static_upsert_detaches (node i subId : Nat) (ipA : String)
    (sg : Store) (current : List IpR) (updated : List Nat) (a0 : Iface)
    (hiface : sg.findIface? i = some a0)
    (hnode : a0.node = node)
    (hidnd : (sg.ifaces.map (fun a => a.id)).Nodup)
    (hipnd : (sg.ips.map (fun r => r.id)).Nodup)
    (hipbound : ∀ r ∈ sg.ips, r.id < sg.nextId)
    (hcurmem : ∀ x ∈ current, x ∈ sg.ips) :
    ∃ rid r,
      (staticResolveAndUpsert node i subId ipA sg current updated).1.findIp? rid
        = some r
      ∧ r.allocType = AllocType.sticky
      ∧ r.ip = some ipA
      ∧ (i, rid) ∈ (staticResolveAndUpsert node i subId ipA sg current updated).1.links
      ∧ (∀ a ∈ (staticResolveAndUpsert node i subId ipA sg current updated).1.ifaces,
          ¬ (a.node = node) →
          ¬ ((a.id, rid) ∈
            (staticResolveAndUpsert node i subId ipA sg current updated).1.links)) := by
  obtain ⟨rid, _, f2, f3, ⟨r, f4a, f4b, f4c⟩, _, _⟩ :=
    staticResolveAndUpsert_facts node i subId ipA sg current updated a0
      hiface hnode hidnd hipnd hipbound hcurmem
  exact ⟨rid, r, f4a, f4b, f4c, f2, f3⟩

/-- A one-interface store instantiating `c5_static_upsert_detaches`. -/
def c5WitStore : Store :=
  { ifaces := [⟨1, 0, "eth0", "aa", "physical", none, true, [], false⟩],
    vlans := [], fabrics := [], subnets := [], ips := [], links := [],
    boots := [], defaultVlan := 0, nextId := 10, writes := [], logs := [] }

/-- Concrete instantiation of `c5_static_upsert_detaches`. -/
theorem c5_static_upsert_detaches_witness :
    ∃ rid r,
      (staticResolveAndUpsert 0 1 5 "10.0.0.1" c5WitStore [] []).1.findIp? rid
        = some r
      ∧ r.allocType = AllocType.sticky
      ∧ r.ip = some "10.0.0.1"
      ∧ (1, rid) ∈ (staticResolveAndUpsert 0 1 5 "10.0.0.1" c5WitStore [] []).1.links
      ∧ (∀ a ∈ (staticResolveAndUpsert 0 1 5 "10.0.0.1" c5WitStore [] []).1.ifaces,
          ¬ (a.node = 0) →
          ¬ ((a.id, rid) ∈
            (staticResolveAndUpsert 0 1 5 "10.0.0.1" c5WitStore [] []).1.links)) :=
  c5_static_upsert_detaches 0 1 5 "10.0.0.1" c5WitStore [] []
    ⟨1, 0, "eth0", "aa", "physical", none, true, [], false⟩
    (by decide) rfl (by decide) (by decide) (by decide) (by decide)

/-- Store refuting the only-linked-to-this-interface reading of the claim:
interfaces 21 and 22 belong to the same node 1, STICKY row 30 for 10.0.0.9
is linked to interface 21, and subnet 9 carries 10.0.0.0/24. -/
def c5Store : Store :=
  { ifaces := [⟨21, 1, "eth0", "aa:01", "physical", some 3, true, [], false⟩,
               ⟨22, 1, "eth1", "aa:02", "physical", some 3, true, [], false⟩],
    vlans := [⟨3, 0, 0⟩], fabrics := [⟨0, 3⟩],
    subnets := [⟨9, "10.0.0.0/24", "10.0.0.0/24", 3, none⟩],
    ips := [⟨30, AllocType.sticky, some "10.0.0.9", some 9⟩],
    links := [(21, 30)], boots := [], defaultVlan := 3, nextId := 50,
    writes := [], logs := [] }

/-- Reconciling a static link for 10.0.0.9 on interface 22 leaves the old
link from interface 21 in place, because 21 belongs to the same node: after
the pass the address row is linked to both interfaces, not only to the one
being reconciled. -/
theorem c5_same_node_retention :
    (21, 30) ∈ (update_links 1 22
        [⟨"static", some ("10.0.0.9", "10.0.0.0/24"), none, false⟩]
        false true c5Store).1.links
    ∧ (22, 30) ∈ (update_links 1 22
        [⟨"static", some ("10.0.0.9", "10.0.0.0/24"), none, false⟩]
        false true c5Store).1.links := by
  decide


/-- C4 — when a physical interface row already carries the desired mac under
a different node, `update_physical_interface` (lines 135-197, in particular
the move of lines 177-186) returns that same row, now owned by the
reconciling node and renamed to the desired name, and every address
previously linked to it has been deleted, so the interface ends the pass
with zero linked addresses. -/
theorem c4_mac_move (node : Nat) (name : String) (cfg : IfaceCfg)
    (s : Store) (i0 : Iface)
    (hdoomed : s.ifaces.filter (fun a => a.itype = "physical" ∧ a.node = node
        ∧ a.name = name ∧ ¬ (a.mac = cfg.mac)) = [])
    (hfind : s.ifaces.find? (fun a => a.itype = "physical" ∧ a.mac = cfg.mac)
        = some i0)
    (hnode : ¬ (i0.node = node))
    (henabled : i0.enabled = cfg.enabled)
    (hidnd : (s.ifaces.map (fun a => a.id)).Nodup) :
    (update_physical_interface node name cfg false none s).1 = i0.id
    ∧ (∃ a, (update_physical_interface node name cfg false none s).2.findIface? i0.id
          = some a ∧ a.node = node ∧ a.name = name ∧ a.mac = i0.mac)
    ∧ (update_physical_interface node name cfg false none s).2.linkedIps i0.id = [] := by
  have hmem : i0 ∈ s.ifaces := List.mem_of_find?_eq_some hfind
  have hself : s.findIface? i0.id = some i0 := by
    apply find?_eq_of_unique s.ifaces _ i0 hmem (by simp)
    intro b hb hbid
    apply List.inj_on_of_nodup_map hidnd hb hmem
    simpa using hbid
  have hdel : s.deleteIfaces ((s.ifaces.filter (fun a => a.itype = "physical"
      ∧ a.node = node ∧ a.name = name ∧ ¬ (a.mac = cfg.mac))).map (fun a => a.id))
      = s := by
    rw [hdoomed]
    rfl
  simp only [update_physical_interface, hdoomed, List.map_nil, Store.deleteIfaces,
    List.foldl_nil, hfind, Bool.false_eq_true, false_and, if_false, hnode,
    not_false_eq_true, if_true, henabled, eq_self_iff_true, not_true,
    List.nil_append, List.isEmpty_cons, List.cons_append]
  refine ⟨trivial, ?_, ?_⟩
  · refine ⟨{ i0 with node := node, name := name, enabled := cfg.enabled }, ?_, rfl, rfl, rfl⟩
    rw [Store.findIface?_addWrite]
    apply Store.findIface?_setIface_self
    rw [Store.findIface?_setIface_isSome]
    have hdi : (s.deleteIps (List.map (fun r => r.id) (s.linkedIps i0.id))).findIface? i0.id
        = s.findIface? i0.id := rfl
    rw [hdi, hself]
    rfl
  · rw [List.eq_nil_iff_forall_not_mem]
    intro r hr
    have h1 := List.mem_filter.mp hr
    obtain ⟨hrip, hrlink⟩ := h1
    have hrip2 := List.mem_filter.mp
      (show r ∈ s.ips.filter
        (fun q => ¬ ((List.map (fun x => x.id) (s.linkedIps i0.id)).contains q.id))
        from hrip)
    have hlink2 : (i0.id, r.id) ∈ s.links.filter
        (fun l => ¬ ((List.map (fun x => x.id) (s.linkedIps i0.id)).contains l.2)) := by
      have : ((s.links.filter
          (fun l => ¬ ((List.map (fun x => x.id) (s.linkedIps i0.id)).contains l.2))).contains
          (i0.id, r.id)) = true := hrlink
      simpa [List.elem_iff] using this
    have hl := List.mem_filter.mp hlink2
    have hrl : r ∈ s.linkedIps i0.id :=
      List.mem_filter.mpr ⟨hrip2.1, by simpa [List.elem_iff] using hl.1⟩
    have hrid : r.id ∈ List.map (fun x => x.id) (s.linkedIps i0.id) :=
      List.mem_map.mpr ⟨r, hrl, rfl⟩
    have hcontr := hrip2.2
    simp only [decide_eq_true_eq, List.elem_iff] at hcontr
    exact hcontr (by simpa [List.elem_iff] using hrid)

/-- A store owning the mac under node 5 with two STICKY links. -/
def c4Store : Store :=
  { ifaces := [⟨7, 5, "old0", "52:54:00:00:00:01", "physical", none, true, [], false⟩],
    vlans := [], fabrics := [], subnets := [],
    ips := [⟨40, AllocType.sticky, some "192.168.1.4", none⟩,
            ⟨41, AllocType.sticky, some "192.168.1.5", none⟩],
    links := [(7, 40), (7, 41)], boots := [], defaultVlan := 0, nextId := 60,
    writes := [], logs := [] }

/-- Desired state declaring the same mac for node 6. -/
def c4Cfg : IfaceCfg :=
  { itype := "physical", parents := [], mac := "52:54:00:00:00:01",
    enabled := true, links := [], vid := 0 }

/-- Concrete instantiation of `c4_mac_move`. -/
theorem c4_mac_move_witness :
    (update_physical_interface 6 "eth0" c4Cfg false none c4Store).1 = 7
    ∧ (∃ a, (update_physical_interface 6 "eth0" c4Cfg false none c4Store).2.findIface? 7
          = some a ∧ a.node = 6 ∧ a.name = "eth0"
          ∧ a.mac = "52:54:00:00:00:01")
    ∧ (update_physical_interface 6 "eth0" c4Cfg false none c4Store).2.linkedIps 7 = [] :=
  c4_mac_move 6 "eth0" c4Cfg c4Store
    ⟨7, 5, "old0", "52:54:00:00:00:01", "physical", none, true, [], false⟩
    (by decide) (by decide) (by decide) rfl (by decide)

